import Mathlib

/-!
# qBittorrent Enhanced Edition, `src/app/main.cpp`

A shallow embedding of the start-up sequence of `main` (command-line checks,
legal-notice gate, detection of an already running instance, daemonization,
signal handlers) and of the signal handler `sigNormalHandler`.

Conventions of the embedding

* A `QString` is a list of characters.
* Preprocessor symbols (`Q_OS_WIN`, `DISABLE_GUI`, ...) are the fields of `Build`.
* Everything `main` obtains from outside (parsed parameters, output of the
  child processes it starts, results of `daemon`, `upgrade`, `exec`, ...) is a
  field of `World`.
* The calls `main` makes to its collaborators are recorded, in order, as a
  list of `Event`s.
-/

namespace QBt

/-! ## Strings -/

/-- A `QString`, as the list of its characters. -/
abbrev QString := List Char

/-- The literal `"--configuration="` with which both regular expressions start. -/
def cfgMarker : QString := "--configuration=".toList

/-- The literal `"^@"`: how `cat -v` shows the NUL byte that ends each argument
of `/proc/<pid>/cmdline`, and the delimiter `get_process_arguments` writes after
each argument (line 173). -/
def nulSep : QString := "^@".toList

/-- Model of `QString::indexOf(pat)` searched from the front; `i` is the index of the
head of the remaining text. Returns `-1` when `pat` does not occur. -/
def indexOfFrom (pat : QString) : QString → Nat → Int
  | [], i => if pat.isPrefixOf [] then (i : Int) else -1
  | c :: cs, i => if pat.isPrefixOf (c :: cs) then (i : Int) else indexOfFrom pat cs (i + 1)

/-- Model of `QString::indexOf(pat)`. -/
def indexOf (s pat : QString) : Int := indexOfFrom pat s 0

/-- Model of `QString::contains(pat)`. -/
def contains (s pat : QString) : Bool := indexOf s pat != -1

/-- Model of `QString::remove(position, n)`: drops `n` characters starting at `position`. -/
def removeAt (s : QString) (position n : Int) : QString :=
  s.take position.toNat ++ s.drop (position.toNat + n.toNat)

/-- Worker of `QString::remove(pat)`: `skip` counts the characters of the
occurrence being deleted that are still to be dropped. -/
def removeAllAux (pat : QString) : QString → Nat → QString
  | [], _ => []
  | _ :: cs, skip + 1 => removeAllAux pat cs skip
  | c :: cs, 0 =>
    if pat.isPrefixOf (c :: cs) then removeAllAux pat cs (pat.length - 1)
    else c :: removeAllAux pat cs 0

/-- Model of `QString::remove(pat)` for a non-empty `pat`: deletes every occurrence,
scanning from the left. -/
def removeAll (s pat : QString) : QString := removeAllAux pat s 0

/-- Worker of `QString::split(sep)`: `cur` is the part being collected. -/
def splitAux (sep : QString) : QString → Nat → QString → List QString
  | [], _, cur => [cur]
  | _ :: cs, skip + 1, cur => splitAux sep cs skip cur
  | c :: cs, 0, cur =>
    if sep.isPrefixOf (c :: cs) then cur :: splitAux sep cs (sep.length - 1) []
    else splitAux sep cs 0 (cur ++ [c])

/-- Model of `QString::split(sep)` for a non-empty `sep`, keeping empty parts (the default). -/
def split (s sep : QString) : List QString := splitAux sep s 0 []

/-- Model of `QString::number(n)` for a non-negative `n`: its decimal rendering. -/
def number (n : Nat) : QString := Nat.toDigits 10 n

/-! ## The two regular expressions -/

/-- Model of `arg.indexIn(s); arg.cap(1)` for `QRegExp arg("--configuration=(.+)")`
(line 250). `indexIn` takes the leftmost position where the pattern matches;
there the greedy `.+` (in `QRegExp` the dot matches every character) takes the
whole remainder of the text, which must hold at least one character. Without a
match `cap(1)` is the empty string. -/
def argCap1 : QString → QString
  | [] => []
  | c :: cs =>
    if cfgMarker.isPrefixOf (c :: cs) && decide (cfgMarker.length < (c :: cs).length) then
      (c :: cs).drop cfgMarker.length
    else argCap1 cs

/-- A match of `--configuration="([^"]*)"` anchored at the head of `s`: the
marker and an opening quote, the longest run of characters other than the
quote, and a closing quote. Returns the run. -/
def winArgMatchHere (s : QString) : Option QString :=
  if (cfgMarker ++ ['"']).isPrefixOf s then
    let rest := s.drop (cfgMarker.length + 1)
    let body := rest.takeWhile (fun ch => ch != '"')
    if (rest.drop body.length).head? = some '"' then some body else none
  else none

/-- Model of `winArg.indexIn(s); winArg.cap(1)` for
`QRegExp winArg("--configuration=\"([^\"]*)\"")` (line 261): the capture of the
leftmost match, the empty string without a match. -/
def winArgCap1 : QString → QString
  | [] => []
  | c :: cs =>
    match winArgMatchHere (c :: cs) with
    | some body => body
    | none => winArgCap1 cs

/-! ## The instance-matching loop (lines 305-328) -/

deriving instance DecidableEq for Except

/-- The exception `CommandLineParameterError`, by the message it carries. -/
inductive CommandLineParameterError
  /-- Message "%1 is an unknown command line parameter." (line 205) -/
  | unknownParameter (name : QString)
  /-- Message "%1 must be the single command line parameter." (lines 215, 224) -/
  | mustBeSingle (flag : QString)
  /-- Message "configuration name must be included with \"\"" (lines 300, 311) -/
  | configurationNameQuotes
  deriving DecidableEq, Repr

/-- Lines 317-319: cut `cfgArg` at the first `"^@"` when there is one. -/
def cutAtNulSep (cfgArg : QString) : QString :=
  if indexOf cfgArg nulSep != -1 then
    removeAt cfgArg (indexOf cfgArg nulSep) ((cfgArg.length : Int) - indexOf cfgArg nulSep)
  else cfgArg

/-- Lines 309-316, present only under `Q_OS_WIN`: a configuration argument
that does not start with a double quote raises the error, otherwise `cfgArg` is
replaced by the capture of `winArg`. -/
def winRequote (windows : Bool) (qb cfgArg : QString) : Except CommandLineParameterError QString :=
  if windows then
    if cfgArg.head? != some '"' then .error .configurationNameQuotes
    else .ok (winArgCap1 qb)
  else .ok cfgArg

/-- One iteration of the loop body (lines 306-327) for the candidate `qb`;
`isRunning` is the value of the flag before the iteration, the result is its
value after, or the exception thrown. -/
def matchBody (windows : Bool) (configurationName qb : QString) (isRunning : Bool) :
    Except CommandLineParameterError Bool :=
  let cfgArg := argCap1 qb
  if cfgArg != [] then
    match winRequote windows qb cfgArg with
    | .error e => .error e
    | .ok cfgArg =>
      let cfgArg := cutAtNulSep cfgArg
      if cfgArg == configurationName then .ok true else .ok isRunning
  else
    if configurationName == [] then .ok true else .ok isRunning

/-- The loop `foreach (QString qb, qBitList)` of lines 305-328, started with
the flag `isRunning`. -/
def matchLoopFrom (windows : Bool) (configurationName : QString) :
    List QString → Bool → Except CommandLineParameterError Bool
  | [], isRunning => .ok isRunning
  | qb :: rest, isRunning =>
    match matchBody windows configurationName qb isRunning with
    | .error e => .error e
    | .ok r => matchLoopFrom windows configurationName rest r

/-- The loop as `main` runs it: `bool isRunning = false;` (line 248) first. -/
def matchLoop (windows : Bool) (configurationName : QString) (qBitList : List QString) :
    Except CommandLineParameterError Bool :=
  matchLoopFrom windows configurationName qBitList false

/-! ## The process scan (lines 256-290) -/

/-- Lines 262-263 (`Q_OS_WIN`) and 276-277 (otherwise): the list of pid texts
cut out of the output `list` of the process query. -/
def pidListOf (windows : Bool) (list : QString) : List QString :=
  if windows then
    (split (removeAll list "ProcessId=".toList) "\r\r\n".toList).filter (fun pid => pid != [])
  else
    (split list "\n".toList).dropLast

/-- What is appended to `qBitList` for one pid, given the text `readAll`
returns for the command-line query of that pid: under `Q_OS_WIN` line 269
strips `"CommandLine="` and the line ends, otherwise the text is taken as it is
(line 287; on macOS the text is the result of `get_process_arguments`, line 282). -/
def cmdLineEntry (windows : Bool) (readAll : QString) : QString :=
  if windows then removeAll (removeAll readAll "CommandLine=".toList) "\r\r\n".toList
  else readAll

/-- The loops `foreach (QString pid, pidList)` of lines 265-270 and 279-289,
with `qBitList` as accumulator; `cmdLineOutput pid` is what the command-line
query for `pid` prints. -/
def scanLoop (windows : Bool) (applicationPid : Nat) (cmdLineOutput : QString → QString) :
    List QString → List QString → List QString
  | [], qBitList => qBitList
  | pid :: rest, qBitList =>
    if number applicationPid == pid then
      scanLoop windows applicationPid cmdLineOutput rest qBitList
    else
      scanLoop windows applicationPid cmdLineOutput rest
        (qBitList ++ [cmdLineEntry windows (cmdLineOutput pid)])

/-- Lines 256-290: `qBitList` after the scan, from the output `list` of the
process query. -/
def scanProcesses (windows : Bool) (applicationPid : Nat) (list : QString)
    (cmdLineOutput : QString → QString) : List QString :=
  scanLoop windows applicationPid cmdLineOutput (pidListOf windows list) []

/-! ## Build variants, inputs and recorded calls -/

/-- The preprocessor symbols that select code in `main.cpp`. -/
structure Build where
  /-- Symbol `Q_OS_WIN` -/
  windows : Bool
  /-- Symbol `Q_OS_HAIKU` -/
  haiku : Bool
  /-- Symbol `DISABLE_GUI` -/
  disableGui : Bool
  /-- Symbol `STACKTRACE` -/
  stacktrace : Bool
  deriving DecidableEq, Repr

/-- The fields and the one method of `QBtCommandLineParameters` that `main` reads. -/
structure QBtCommandLineParameters where
  showHelp : Bool
  showVersion : Bool
  noSplash : Bool
  shouldDaemonize : Bool
  configurationName : QString
  unknownParameter : QString
  /-- The value of `paramList()`. -/
  paramList : List QString

/-- Everything `main` reads from its surroundings. -/
structure World where
  argc : Int
  /-- Value of `app->commandLineArgs()` -/
  params : QBtCommandLineParameters
  /-- Value of `isatty(fileno(stdin))` -/
  isattyStdin : Bool
  /-- Value of `isatty(fileno(stdout))` -/
  isattyStdout : Bool
  /-- Value of `Preferences::instance()->getAcceptedLegal()` -/
  acceptedLegal : Bool
  /-- The key `getchar()` returns at the legal notice (no-GUI build). -/
  getchar : Char
  /-- Whether the button clicked in the legal notice box is "I Agree" (GUI build). -/
  agreeClicked : Bool
  /-- Value of `app->isRunning()` at line 244 -/
  appIsRunning : Bool
  /-- Value of `app->applicationPid()` -/
  applicationPid : Nat
  /-- What the process query of line 257 or 272 prints. -/
  pidQueryOutput : QString
  /-- What the command-line query for a pid prints (lines 267, 282, 285). -/
  cmdLineOutput : QString → QString
  /-- What the query for the own command line prints (line 294, `Q_OS_WIN`). -/
  ownCmdLineOutput : QString
  /-- The result of `upgrade(...)` -/
  upgradeOk : Bool
  /-- The result of `daemon(1, 0)` -/
  daemonResult : Int
  /-- Value of `app->isRunning()` at line 382, on the re-created application -/
  appIsRunningAfterDaemon : Bool
  /-- Value of `Preferences::instance()->isSplashScreenDisabled()` -/
  splashScreenDisabled : Bool
  /-- The result of `app->exec(...)` -/
  execResult : Int

/-- What `signal` can install for a signal number. -/
inductive SigHandler
  | SIG_DFL
  | sigNormalHandler
  | sigAbnormalHandler
  deriving DecidableEq, Repr

/-- The calls of `main` that are recorded. Calls that only prepare the
environment and have no part in the control flow (`qputenv`, `setAttribute`,
`migrateRSS`, `macMigratePlists`, `QThread::msleep`, `qDebug`) are left out. -/
inductive Event
  | displayVersion
  | displayUsage
  /-- Prompt: `userAgreesWithLegalNotice` shows the notice and waits for the answer. -/
  | legalNoticePrompt
  | setAcceptedLegal (value : Bool)
  | sendParams (params : List QString)
  /-- Call `upgrade(ask)`; `none` is the call without argument of the GUI build. -/
  | upgrade (ask : Option Bool)
  | daemon
  | qCritical
  | showSplashScreen
  | signal (signum : Nat) (handler : SigHandler)
  | exec (params : List QString)
  | displayBadArgMessage (e : CommandLineParameterError)
  deriving DecidableEq, Repr

def EXIT_SUCCESS : Int := 0

def EXIT_FAILURE : Int := 1

def SIGINT : Nat := 2

def SIGSEGV : Nat := 11

def SIGTERM : Nat := 15

/-- Constant `SIGABRT` is 22 in the Windows `signal.h` and 6 elsewhere. -/
def SIGABRT (windows : Bool) : Nat := if windows then 22 else 6

/-- How a statement, or a run of statements, of the `try` block ends. -/
inductive Ctl
  /-- Control reaches the statement that follows. -/
  | next
  /-- Statement `return code;` -/
  | ret (code : Int)
  /-- Statement `throw CommandLineParameterError(...)` -/
  | throw (e : CommandLineParameterError)
  /-- A precondition of a library call is violated (`QString::at` past the end). -/
  | abort
  deriving DecidableEq, Repr

/-- Sequencing: `k` runs only when `a` lets control through. -/
def andThen (a k : List Event × Ctl) : List Event × Ctl :=
  match a.2 with
  | .next => (a.1 ++ k.1, k.2)
  | _ => a

/-! ## `main` (lines 180-410) -/

/-- Function `userAgreesWithLegalNotice` (lines 500-536): the calls it makes and its result. -/
def userAgreesWithLegalNotice (b : Build) (w : World) : List Event × Bool :=
  if w.acceptedLegal then ([], true)
  else if b.disableGui then
    if w.getchar == 'y' || w.getchar == 'Y' then
      ([.legalNoticePrompt, .setAcceptedLegal true], true)
    else ([.legalNoticePrompt], false)
  else
    if w.agreeClicked then ([.legalNoticePrompt, .setAcceptedLegal true], true)
    else ([.legalNoticePrompt], false)

/-- Lines 183 and 204-226: unknown parameter, version flag, help flag. -/
def checkParams (b : Build) (w : World) : List Event × Ctl :=
  let isOneArg : Bool := w.argc == 2
  if w.params.unknownParameter != [] then
    ([], .throw (.unknownParameter w.params.unknownParameter))
  else if !b.windows && w.params.showVersion then
    if isOneArg then ([.displayVersion], .ret EXIT_SUCCESS)
    else ([], .throw (.mustBeSingle "-v (or --version)".toList))
  else if w.params.showHelp then
    if isOneArg then ([.displayUsage], .ret EXIT_SUCCESS)
    else ([], .throw (.mustBeSingle "-h (or --help)".toList))
  else ([], .next)

/-- Lines 232-241: the legal notice. -/
def legalGate (b : Build) (w : World) : List Event × Ctl :=
  if b.disableGui then
    if !w.params.shouldDaemonize && w.isattyStdin && w.isattyStdout then
      let r := userAgreesWithLegalNotice b w
      (r.1, if !r.2 then .ret EXIT_SUCCESS else .next)
    else ([], .next)
  else
    let r := userAgreesWithLegalNotice b w
    (r.1, if !r.2 then .ret EXIT_SUCCESS else .next)

/-- Lines 183-241: what `main` does before it asks `app->isRunning()`. -/
def startup (b : Build) (w : World) : List Event × Ctl :=
  andThen (checkParams b w) (legalGate b w)

/-- Lines 293-303, present only under `Q_OS_WIN`: the check of the own
command line. -/
def ownConfigurationCheck (b : Build) (w : World) : Ctl :=
  if b.windows then
    if contains w.ownCmdLineOutput "configuration=".toList then
      match (argCap1 w.ownCmdLineOutput).head? with
      | none => .abort
      | some ch => if ch != '"' then .throw .configurationNameQuotes else .next
    else .next
  else .next

/-- Lines 330-336: what follows the loop once it has produced `isRunning`. -/
def afterLoop (w : World) (isRunning : Bool) : List Event × Ctl :=
  andThen
    (if w.params.configurationName == [] then ([.sendParams w.params.paramList], .next)
     else ([], .next))
    (if isRunning then ([], .ret EXIT_SUCCESS) else ([], .next))

/-- Lines 244-337: the block `if (app->isRunning())`. -/
def detectRunning (b : Build) (w : World) : List Event × Ctl :=
  if w.appIsRunning then
    let qBitList := scanProcesses b.windows w.applicationPid w.pidQueryOutput w.cmdLineOutput
    match ownConfigurationCheck b w with
    | .next =>
      match matchLoop b.windows w.params.configurationName qBitList with
      | .error e => ([], .throw e)
      | .ok isRunning => afterLoop w isRunning
    | c => ([], c)
  else ([], .next)

/-- Lines 370-376: the upgrade step. -/
def upgradeStep (b : Build) (w : World) : List Event × Ctl :=
  let ask : Option Bool :=
    if b.disableGui then some (!w.params.shouldDaemonize && w.isattyStdin && w.isattyStdout)
    else none
  ([.upgrade ask], if !w.upgradeOk then .ret EXIT_FAILURE else .next)

/-- Lines 377-395: daemonization (no-GUI build) or splash screen (GUI build). -/
def daemonizeOrSplash (b : Build) (w : World) : List Event × Ctl :=
  if b.disableGui then
    if w.params.shouldDaemonize then
      if w.daemonResult == 0 then
        if w.appIsRunningAfterDaemon then ([.daemon], .ret EXIT_FAILURE)
        else ([.daemon], .next)
      else ([.daemon, .qCritical], .ret EXIT_FAILURE)
    else ([], .next)
  else
    if !(w.params.noSplash || w.splashScreenDisabled) then ([.showSplashScreen], .next)
    else ([], .next)

/-- Lines 397-402: the calls of `signal`. -/
def installSignalHandlers (b : Build) : List Event :=
  [.signal SIGINT .sigNormalHandler, .signal SIGTERM .sigNormalHandler] ++
    (if b.stacktrace then
      [.signal (SIGABRT b.windows) .sigAbnormalHandler, .signal SIGSEGV .sigAbnormalHandler]
     else [])

/-- Lines 397-404: signal handlers, then `return app->exec(params.paramList());`. -/
def runEngine (b : Build) (w : World) : List Event × Ctl :=
  (installSignalHandlers b ++ [.exec w.params.paramList], .ret w.execResult)

/-- Lines 339-404: what follows the block `if (app->isRunning())`. -/
def afterDetection (b : Build) (w : World) : List Event × Ctl :=
  andThen (upgradeStep b w) (andThen (daemonizeOrSplash b w) (runEngine b w))

/-- The body of the `try` block (lines 191-405). -/
def tryBlock (b : Build) (w : World) : List Event × Ctl :=
  andThen (startup b w) (andThen (detectRunning b w) (afterDetection b w))

/-- How a run of `main` ends. -/
inductive Outcome
  | returned (code : Int)
  | aborted
  deriving DecidableEq, Repr

/-- A run of `main`: the recorded calls, in order, and how it ends. -/
structure Run where
  trace : List Event
  outcome : Outcome
  deriving DecidableEq, Repr

/-- Function `main` (lines 180-410): the `try` block and the `catch` clause of lines 406-409. -/
def main (b : Build) (w : World) : Run :=
  match tryBlock b w with
  | (tr, .ret code) => ⟨tr, .returned code⟩
  | (tr, .throw e) => ⟨tr ++ [.displayBadArgMessage e], .returned EXIT_FAILURE⟩
  | (tr, .abort) => ⟨tr, .aborted⟩
  | (tr, .next) => ⟨tr, .returned 0⟩

/-! ## Signal handlers (lines 96-108, 412-460) -/

/-- The table `sysSigName` (lines 96-108). -/
def sysSigName (windows : Bool) : List QString :=
  (if windows then
    ["", "", "SIGINT", "", "SIGILL", "", "SIGABRT_COMPAT", "", "SIGFPE", "",
     "", "SIGSEGV", "", "", "", "SIGTERM", "", "", "", "",
     "", "SIGBREAK", "SIGABRT", "", "", "", "", "", "", "",
     "", ""]
  else
    ["", "SIGHUP", "SIGINT", "SIGQUIT", "SIGILL", "SIGTRAP", "SIGABRT", "SIGBUS", "SIGFPE", "SIGKILL",
     "SIGUSR1", "SIGSEGV", "SIGUSR2", "SIGPIPE", "SIGALRM", "SIGTERM", "SIGSTKFLT", "SIGCHLD", "SIGCONT", "SIGSTOP",
     "SIGTSTP", "SIGTTIN", "SIGTTOU", "SIGURG", "SIGXCPU", "SIGXFSZ", "SIGVTALRM", "SIGPROF", "SIGWINCH", "SIGIO",
     "SIGPWR", "SIGUNUSED"]).map String.toList

def STDOUT_FILENO : Nat := 1

def STDERR_FILENO : Nat := 2

/-- What a signal handler does to the world outside the disposition table. -/
inductive Action
  /-- Call `write(fd, buf, strlen(buf))` -/
  | write (fd : Nat) (buf : QString)
  /-- Call `qApp->exit()` -/
  | appExit
  /-- Call `print_stacktrace()` -/
  | printStacktrace
  /-- The `StacktraceDialog` of the Windows build, run for `sigName`. -/
  | stacktraceDialog (sigName : QString)
  /-- The default action of the operating system for the signal. -/
  | defaultAction (signum : Nat)
  deriving DecidableEq, Repr

/-- The state a signal handler works on: the disposition of every signal and
the actions taken so far, in order. -/
structure Process where
  disposition : Nat → SigHandler
  log : List Action

/-- Call `signal(signum, handler)`. -/
def Process.signal (p : Process) (signum : Nat) (handler : SigHandler) : Process :=
  { p with disposition := fun n => if n = signum then handler else p.disposition n }

/-- The effect of the recorded calls of `signal` on the disposition table. -/
def Process.applyEvents (p : Process) : List Event → Process
  | [] => p
  | .signal signum handler :: rest => (p.signal signum handler).applyEvents rest
  | _ :: rest => p.applyEvents rest

/-- Function `reportToUser` (lines 413-420); `writeResult fd buf` is what `write` returns. -/
def reportToUser (writeResult : Nat → QString → Int) (str : QString) (p : Process) : Process :=
  let p1 : Process := { p with log := p.log ++ [.write STDERR_FILENO str] }
  if writeResult STDERR_FILENO str < (str.length : Int) then
    { p1 with log := p1.log ++ [.write STDOUT_FILENO str] }
  else p1

/-- The version text `QBT_VERSION` is defined outside `main.cpp`; it is a parameter. -/
def abnormalMsg (qbtVersion : QString) : QString :=
  ("\n\n*************************************************************\n" ++
    "Please file a bug report at http://bug.qbittorrent.org and provide the following information:\n\n" ++
    "qBittorrent version: ").toList ++ qbtVersion ++ "\n\nCaught signal: ".toList

/-- Function `sigNormalHandler` (lines 423-434). `none` when `sysSigName[signum]` reads
outside the table. -/
def sigNormalHandler (b : Build) (writeResult : Nat → QString → Int) (signum : Nat)
    (p : Process) : Option Process :=
  let reported : Option Process :=
    if !b.windows && !b.haiku then
      match (sysSigName b.windows)[signum]? with
      | none => none
      | some name =>
        some (reportToUser writeResult "\nExiting cleanly\n".toList
          (reportToUser writeResult name
            (reportToUser writeResult "Catching signal: ".toList p)))
    else some p
  reported.map fun p1 =>
    let p2 := p1.signal signum .SIG_DFL
    { p2 with log := p2.log ++ [.appExit] }

/-- The delivery of `signum` when its disposition is `SIG_DFL`. -/
def defaultDelivery (signum : Nat) (p : Process) : Process :=
  { p with log := p.log ++ [.defaultAction signum] }

/-- Function `sigAbnormalHandler` (lines 437-459); `raise(signum)` at its end finds the
disposition `SIG_DFL` it has just set. -/
def sigAbnormalHandler (b : Build) (writeResult : Nat → QString → Int) (qbtVersion : QString)
    (signum : Nat) (p : Process) : Option Process :=
  match (sysSigName b.windows)[signum]? with
  | none => none
  | some sigName =>
    let p1 : Process :=
      if !b.windows && !b.haiku then
        let q := reportToUser writeResult "\n".toList
          (reportToUser writeResult sigName
            (reportToUser writeResult (abnormalMsg qbtVersion) p))
        { q with log := q.log ++ [.printStacktrace] }
      else p
    let p2 : Process :=
      if b.windows then { p1 with log := p1.log ++ [.stacktraceDialog sigName] } else p1
    some (defaultDelivery signum (p2.signal signum .SIG_DFL))

/-- The delivery of the signal `signum` to the process: the installed handler
runs, or the default action is taken. -/
def deliver (b : Build) (writeResult : Nat → QString → Int) (qbtVersion : QString)
    (signum : Nat) (p : Process) : Option Process :=
  match p.disposition signum with
  | .SIG_DFL => some (defaultDelivery signum p)
  | .sigNormalHandler => sigNormalHandler b writeResult signum p
  | .sigAbnormalHandler => sigAbnormalHandler b writeResult qbtVersion signum p

/-- The texts passed to `write` for the standard error stream, in order. -/
def stderrWrites : List Action → List QString
  | [] => []
  | .write fd buf :: rest => if fd = STDERR_FILENO then buf :: stderrWrites rest else stderrWrites rest
  | _ :: rest => stderrWrites rest

/-! ## Sample inputs -/

/-- A no-GUI build for Linux without stack traces. -/
def linuxNoGui : Build :=
  { windows := false, haiku := false, disableGui := true, stacktrace := false }

/-- A GUI build for Windows without stack traces. -/
def windowsGui : Build :=
  { windows := true, haiku := false, disableGui := false, stacktrace := false }

/-- A start with one torrent file as parameter: the legal notice is accepted
already, `app->isRunning()` holds, the process query lists the pids 12 and 34,
the latter being the own pid, and the command-line query prints `cmdLine`. -/
def sampleWorld (configurationName cmdLine : QString) : World :=
  { argc := 2
    params :=
      { showHelp := false, showVersion := false, noSplash := false, shouldDaemonize := false,
        configurationName := configurationName, unknownParameter := [],
        paramList := ["a.torrent".toList] }
    isattyStdin := true
    isattyStdout := true
    acceptedLegal := true
    getchar := 'n'
    agreeClicked := false
    appIsRunning := true
    applicationPid := 34
    pidQueryOutput := "12\n34\n".toList
    cmdLineOutput := fun _ => cmdLine
    ownCmdLineOutput := []
    upgradeOk := true
    daemonResult := 0
    appIsRunningAfterDaemon := false
    splashScreenDisabled := true
    execResult := 3 }

/-- A start under Windows with `--configuration="work"`, seen as `wmic` prints
it: the process query lists the pids 12 and 34, the latter being the own pid,
and the command-line query for the other instance prints `cmdLine`. -/
def windowsWorld (cmdLine : QString) : World :=
  { sampleWorld "work".toList cmdLine with
    pidQueryOutput := "\r\r\nProcessId=12\r\r\n\r\r\nProcessId=34\r\r\n\r\r\n".toList
    ownCmdLineOutput :=
      "\r\r\nCommandLine=qbittorrent.exe --configuration=\"work\"\r\r\n\r\r\n".toList }

/-- A start under Windows with `--configuration=work` typed without quotes,
while one instance without configuration argument is alive: the process query
lists the pids 12 and 34, the latter being the own pid. -/
def windowsUnquotedWorld : World :=
  { sampleWorld "work".toList "\r\r\nCommandLine=qbittorrent.exe\r\r\n".toList with
    pidQueryOutput := "\r\r\nProcessId=12\r\r\n\r\r\nProcessId=34\r\r\n\r\r\n".toList
    ownCmdLineOutput :=
      "\r\r\nCommandLine=qbittorrent.exe --configuration=work\r\r\n\r\r\n".toList }

/-- A no-GUI build for Haiku without stack traces. -/
def haikuNoGui : Build :=
  { windows := false, haiku := true, disableGui := true, stacktrace := false }

/-- A start of which only `argc` and the version and help flags matter. -/
def flagWorld (argc : Int) (showVersion showHelp : Bool) : World :=
  { sampleWorld [] [] with
    argc := argc
    params :=
      { showHelp := showHelp, showVersion := showVersion, noSplash := false,
        shouldDaemonize := false, configurationName := [], unknownParameter := [],
        paramList := [] } }

/-- A process in which no handler is installed and nothing has happened yet. -/
def bootProcess : Process :=
  { disposition := fun _ => .SIG_DFL, log := [] }

/-! ## Reading a trace -/

/-- Is the call a `sendParams`? -/
def isSendParams : Event → Bool
  | .sendParams _ => true
  | _ => false

/-- Is the call the `app->exec` of line 404? -/
def isExec : Event → Bool
  | .exec _ => true
  | _ => false

/-- Is the call `displayVersion` or `displayUsage`? -/
def isDisplay : Event → Bool
  | .displayVersion => true
  | .displayUsage => true
  | _ => false

/-- Is the call the `daemon(1, 0)` of line 380? -/
def isDaemon : Event → Bool
  | .daemon => true
  | _ => false

/-- A start of the no-GUI build with the daemonize flag, while no other instance
is seen at line 244; `daemon` returns `daemonResult`, and the re-created
application reports `appIsRunningAfterDaemon`. -/
def daemonWorld (daemonResult : Int) (appIsRunningAfterDaemon : Bool) : World :=
  { sampleWorld [] [] with
    params :=
      { showHelp := false, showVersion := false, noSplash := false, shouldDaemonize := true,
        configurationName := [], unknownParameter := [], paramList := ["a.torrent".toList] }
    appIsRunning := false
    daemonResult := daemonResult
    appIsRunningAfterDaemon := appIsRunningAfterDaemon }

/-- Is the call part of the legal notice: the prompt or the write of the flag? -/
def isLegal : Event → Bool
  | .legalNoticePrompt => true
  | .setAcceptedLegal _ => true
  | _ => false

/-- Modelled from the spec: the class `Preferences` is not part of `main.cpp`;
the spec describes a single persisted boolean "legal notice accepted" flag with
`HasAccepted` and `RecordAccepted`. The value `getAcceptedLegal()` has after the
recorded calls, from the value `flag` it had before: each `setAcceptedLegal(v)`
stores `v`, no other call touches it. -/
def acceptedLegalAfter (flag : Bool) : List Event → Bool
  | [] => flag
  | .setAcceptedLegal v :: rest => acceptedLegalAfter v rest
  | _ :: rest => acceptedLegalAfter flag rest

/-- A first start on a terminal: the legal notice is not accepted yet, the key
pressed at the notice is `key`, and no other instance is running. -/
def legalWorld (shouldDaemonize : Bool) (key : Char) : World :=
  { sampleWorld [] [] with
    params :=
      { showHelp := false, showVersion := false, noSplash := false,
        shouldDaemonize := shouldDaemonize, configurationName := [], unknownParameter := [],
        paramList := ["a.torrent".toList] }
    acceptedLegal := false
    getchar := key
    appIsRunning := false }

/-! ## Properties of the matching loop -/

/-- The flag after one iteration, from the iteration run on a flag that is down:
the body only ever raises the flag, and whether it throws does not depend on it. -/
theorem matchBody_acc (windows : Bool) (d qb : QString) (r : Bool) :
    matchBody windows d qb r =
      match matchBody windows d qb false with
      | .error _ => .error .configurationNameQuotes
      | .ok m => .ok (m || r) := by
  unfold matchBody winRequote
  by_cases h1 : argCap1 qb = []
  · by_cases h2 : d = [] <;> simp [h1, h2]
  · cases windows
    · by_cases h3 : cutAtNulSep (argCap1 qb) = d <;> simp [h1, h3]
    · by_cases h2 : (argCap1 qb).head? = some '"'
      · by_cases h3 : cutAtNulSep (winArgCap1 qb) = d <;> simp [h1, h2, h3]
      · simp [h1, h2]

/-- Closed form of the loop: it throws when the body throws on some candidate,
otherwise the flag is raised when the body raises it on some candidate. -/
theorem matchLoopFrom_eq (windows : Bool) (d : QString) (l : List QString) (r : Bool) :
    matchLoopFrom windows d l r =
      if l.any (fun qb => matchBody windows d qb false == .error .configurationNameQuotes) then
        .error .configurationNameQuotes
      else .ok (r || l.any (fun qb => matchBody windows d qb false == .ok true)) := by
  induction l generalizing r with
  | nil => simp [matchLoopFrom]
  | cons qb rest ih =>
    rw [matchLoopFrom, matchBody_acc]
    cases h : matchBody windows d qb false with
    | error e =>
      have he : e = .configurationNameQuotes := by
        have := matchBody_acc windows d qb false
        rw [h] at this
        simpa using this
      subst he
      simp [h]
    | ok m =>
      have e1 : ((Except.ok false : Except CommandLineParameterError Bool) ==
          Except.ok true) = false := by decide
      simp only [ih, List.any_cons, h]
      cases m <;> cases r <;> simp [e1]

theorem any_eq_of_perm {α : Type} (p : α → Bool) {l1 l2 : List α} (h : l1.Perm l2) :
    l1.any p = l2.any p := by
  rw [Bool.eq_iff_iff]
  simp only [List.any_eq_true]
  constructor
  · rintro ⟨x, hx, hp⟩
    exact ⟨x, h.mem_iff.mp hx, hp⟩
  · rintro ⟨x, hx, hp⟩
    exact ⟨x, h.mem_iff.mpr hx, hp⟩

/-- The capture of `arg` is empty exactly when the text holds no
`--configuration=` that is followed by at least one character. -/
theorem argCap1_eq_nil_iff (qb : QString) :
    argCap1 qb = [] ↔ ¬ ∃ pre name, name ≠ [] ∧ qb = pre ++ cfgMarker ++ name := by
  induction qb with
  | nil =>
    simp only [argCap1, true_iff]
    rintro ⟨pre, name, _, h⟩
    have := congrArg List.length h
    simp [cfgMarker] at this
    omega
  | cons c cs ih =>
    rw [argCap1]
    by_cases hc : (cfgMarker.isPrefixOf (c :: cs) &&
        decide (cfgMarker.length < (c :: cs).length)) = true
    · rw [if_pos hc]
      simp only [Bool.and_eq_true, decide_eq_true_eq, List.isPrefixOf_iff_prefix] at hc
      obtain ⟨⟨t, ht⟩, hlen⟩ := hc
      have htne : t ≠ [] := by
        rintro rfl
        rw [← ht] at hlen
        simp at hlen
      constructor
      · intro h
        rw [← ht, List.drop_left] at h
        exact absurd h htne
      · intro h
        exact absurd ⟨[], t, htne, by simpa using ht.symm⟩ h
    · rw [if_neg hc, ih]
      constructor
      · rintro h ⟨pre, name, hn, he⟩
        cases pre with
        | nil =>
          apply hc
          simp only [Bool.and_eq_true, decide_eq_true_eq, List.isPrefixOf_iff_prefix]
          refine ⟨⟨name, by simpa using he.symm⟩, ?_⟩
          rw [he]
          have : 0 < name.length := List.length_pos.mpr hn
          simp
          omega
        | cons p pre =>
          simp only [List.cons_append, List.cons.injEq] at he
          exact h ⟨pre, name, hn, he.2⟩
      · rintro h ⟨pre, name, hn, he⟩
        exact h ⟨c :: pre, name, hn, by simp [he]⟩

/-- The capture of `arg` is all the text after the first `--configuration=`. -/
theorem argCap1_first (pre t : QString) (ht : t ≠ [])
    (hfirst : ∀ a b, pre ++ cfgMarker ++ t = a ++ cfgMarker ++ b → pre.length ≤ a.length) :
    argCap1 (pre ++ cfgMarker ++ t) = t := by
  induction pre with
  | nil =>
    have hlen : 0 < t.length := List.length_pos.mpr ht
    have h1 : cfgMarker.isPrefixOf (cfgMarker ++ t) = true :=
      List.isPrefixOf_iff_prefix.mpr ⟨t, rfl⟩
    have h2 : cfgMarker.length < (cfgMarker ++ t).length := by simp; omega
    have hm : cfgMarker ++ t = '-' :: ("-configuration=".toList ++ t) := rfl
    have h3 : argCap1 (('-' :: ("-configuration=".toList ++ t))) = t := by
      rw [argCap1, ← hm, h1]
      simp only [h2, decide_True, Bool.and_self, if_true, List.drop_left]
    simpa [hm] using h3
  | cons c pre ih =>
    have hc : ¬ (cfgMarker.isPrefixOf (c :: (pre ++ cfgMarker ++ t)) &&
        decide (cfgMarker.length < (c :: (pre ++ cfgMarker ++ t)).length)) = true := by
      intro hc
      simp only [Bool.and_eq_true, List.isPrefixOf_iff_prefix] at hc
      obtain ⟨⟨b, hb⟩, _⟩ := hc
      have := hfirst [] b (by simpa using hb.symm)
      simp at this
    have : c :: pre ++ cfgMarker ++ t = c :: (pre ++ cfgMarker ++ t) := by simp
    rw [this, argCap1, if_neg hc]
    apply ih
    intro a b hab
    have := hfirst (c :: a) b (by simp [hab])
    simpa using this

/-- The index of `"^@"` in a text that starts with `name`, free of `"^@"`,
followed by `"^@"`. -/
theorem indexOfFrom_nulSep (name rest : QString) (hsep : ¬ nulSep <:+: name) (i : Nat) :
    indexOfFrom nulSep (name ++ nulSep ++ rest) i = ((i + name.length : Nat) : Int) := by
  induction name generalizing i with
  | nil => simp [nulSep, indexOfFrom]
  | cons c name ih =>
    have hn : ¬ nulSep <:+: name := fun h => hsep (h.trans (List.suffix_cons c name).isInfix)
    have hp : nulSep.isPrefixOf (c :: (name ++ nulSep ++ rest)) = false := by
      rw [Bool.eq_false_iff]
      intro hp
      rw [List.isPrefixOf_iff_prefix] at hp
      obtain ⟨t, ht⟩ := hp
      cases name with
      | nil => simp [nulSep] at ht
      | cons c2 name =>
        simp only [nulSep, List.cons_append, String.toList, List.cons.injEq] at ht
        apply hsep
        refine ⟨[], name, ?_⟩
        simp [nulSep, ← ht.1, ← ht.2.1]
    have : c :: name ++ nulSep ++ rest = c :: (name ++ nulSep ++ rest) := by simp
    rw [this, indexOfFrom, hp]
    simp only [Bool.false_eq_true, if_false]
    rw [ih hn]
    simp
    omega

/-- Lines 317-319 on a text that starts with `name`, free of `"^@"`, followed
by `"^@"`: what is left is `name`. -/
theorem cutAtNulSep_name (name rest : QString) (hsep : ¬ nulSep <:+: name) :
    cutAtNulSep (name ++ nulSep ++ rest) = name := by
  unfold cutAtNulSep indexOf
  rw [indexOfFrom_nulSep name rest hsep 0]
  have h1 : (((0 + name.length : Nat) : Int) != -1) = true := by
    simp only [bne_iff_ne, ne_eq]
    omega
  rw [if_pos h1]
  unfold removeAt
  have h2 : (((0 + name.length : Nat) : Int)).toNat = name.length := by simp
  have h3 : (((name ++ nulSep ++ rest).length : Int) - ((0 + name.length : Nat) : Int)).toNat
      = (nulSep ++ rest).length := by
    simp only [List.length_append, List.append_assoc]
    omega
  rw [h2, h3]
  simp [List.take_append_eq_append_take, List.drop_append_eq_append_drop]

/-- A scan that finds no `--configuration=` starting within `pre` shows that the
occurrence right after `pre` is the first one. -/
theorem first_of_scan (pre t : QString)
    (h : ∀ k < pre.length, cfgMarker.isPrefixOf ((pre ++ cfgMarker ++ t).drop k) = false) :
    ∀ a b, pre ++ cfgMarker ++ t = a ++ cfgMarker ++ b → pre.length ≤ a.length := by
  intro a b hab
  by_contra hlt
  have hk := h a.length (by omega)
  rw [hab, List.append_assoc, List.drop_left, Bool.eq_false_iff] at hk
  exact hk (List.isPrefixOf_iff_prefix.mpr ⟨b, rfl⟩)

/-- C1: the matching loop is order-independent. For every build variant, every
desired configuration name and every two candidate lists that are permutations
of each other, the loop ends the same way: the same value of `isRunning`, or in
both cases the `CommandLineParameterError` of the Windows variant. -/
theorem matchLoop_perm (windows : Bool) (configurationName : QString)
    (l1 l2 : List QString) (h : l1.Perm l2) :
    matchLoop windows configurationName l1 = matchLoop windows configurationName l2 := by
  unfold matchLoop
  rw [matchLoopFrom_eq, matchLoopFrom_eq, any_eq_of_perm _ h, any_eq_of_perm _ h]

/-- C1, at a concrete input: a named and an unnamed candidate in both orders. -/
theorem matchLoop_perm_witness :
    ["qbittorrent^@--configuration=work^@".toList, "qbittorrent^@".toList].Perm
        ["qbittorrent^@".toList, "qbittorrent^@--configuration=work^@".toList] ∧
      matchLoop false "work".toList
          ["qbittorrent^@--configuration=work^@".toList, "qbittorrent^@".toList] =
        matchLoop false "work".toList
          ["qbittorrent^@".toList, "qbittorrent^@--configuration=work^@".toList] :=
  ⟨List.Perm.swap _ _ _, matchLoop_perm false _ _ _ (List.Perm.swap _ _ _)⟩


/-- On a candidate for which `arg` captures nothing the loop body raises the
flag exactly when the desired name is empty. -/
theorem matchBody_of_no_capture (windows : Bool) (d qb : QString) (hq : argCap1 qb = [])
    (r : Bool) : matchBody windows d qb r = .ok (decide (d = []) || r) := by
  unfold matchBody
  by_cases hd : d = [] <;> simp [hq, hd]

/-- The loop on a non-empty list of candidates for which `arg` captures nothing. -/
theorem matchLoop_of_no_capture (windows : Bool) (d : QString) (l : List QString)
    (hne : l ≠ []) (hall : ∀ qb ∈ l, argCap1 qb = []) :
    matchLoop windows d l = .ok (decide (d = [])) := by
  unfold matchLoop
  rw [matchLoopFrom_eq]
  have hany1 : l.any (fun qb => matchBody windows d qb false ==
      .error .configurationNameQuotes) = false := by
    rw [List.any_eq_false]
    intro qb hqb
    rw [matchBody_of_no_capture windows d qb (hall qb hqb) false]
    simp
  rw [hany1]
  simp only [Bool.false_eq_true, if_false, Bool.false_or]
  congr 1
  rw [Bool.eq_iff_iff]
  simp only [List.any_eq_true, decide_eq_true_eq, beq_iff_eq]
  constructor
  · rintro ⟨qb, hqb, h⟩
    rw [matchBody_of_no_capture windows d qb (hall qb hqb) false] at h
    simpa using h
  · intro hd
    obtain ⟨qb, hqb⟩ := List.exists_mem_of_ne_nil l hne
    refine ⟨qb, hqb, ?_⟩
    rw [matchBody_of_no_capture windows d qb (hall qb hqb) false]
    simp [hd]

/-- C2: a candidate without configuration argument stands for the unnamed
configuration. In either build variant and for every desired configuration
name, on a candidate whose command line holds no `--configuration=` followed by
non-empty text (the empty command line among them) the loop body raises the flag
exactly when the desired name is empty, and a non-empty list of such candidates
gives `isRunning = (desired == "")`. -/
theorem matchLoop_unnamed (windows : Bool) (configurationName : QString) (l : List QString)
    (hne : l ≠ [])
    (hall : ∀ qb ∈ l, ¬ ∃ pre name, name ≠ [] ∧ qb = pre ++ cfgMarker ++ name) :
    (∀ r, matchBody windows configurationName [] r = .ok (decide (configurationName = []) || r)) ∧
    (∀ qb ∈ l, ∀ r,
      matchBody windows configurationName qb r = .ok (decide (configurationName = []) || r)) ∧
    matchLoop windows configurationName l = .ok (decide (configurationName = [])) := by
  have hcap : ∀ qb ∈ l, argCap1 qb = [] :=
    fun qb hqb => (argCap1_eq_nil_iff qb).mpr (hall qb hqb)
  refine ⟨?_, ?_, ?_⟩
  · intro r
    exact matchBody_of_no_capture windows configurationName [] rfl r
  · intro qb hqb r
    exact matchBody_of_no_capture windows configurationName qb (hcap qb hqb) r
  · exact matchLoop_of_no_capture windows configurationName l hne hcap

/-- C2, at a concrete input: an empty command line and one without
configuration argument, asked for the configuration `work` under Windows. -/
theorem matchLoop_unnamed_witness :
    matchLoop true "work".toList [[], "qbittorrent.exe --no-splash".toList] = .ok false :=
  (matchLoop_unnamed true "work".toList [[], "qbittorrent.exe --no-splash".toList]
    (by simp)
    (fun qb hqb => (argCap1_eq_nil_iff qb).mp (by
      simp only [List.mem_cons, List.mem_singleton, List.not_mem_nil, or_false] at hqb
      rcases hqb with h | h <;> subst h <;> decide))).2.2

/-- C3: in the non-Windows variant, on a candidate command line in which the
first `--configuration=` is followed by a non-empty name free of `"^@"` and then
by `"^@"`, the loop extracts exactly that name, and the candidate counts as a
match exactly when the name equals the desired configuration name. -/
theorem matchBody_named (configurationName pre name rest : QString)
    (hfirst : ∀ a b, pre ++ cfgMarker ++ (name ++ nulSep ++ rest) = a ++ cfgMarker ++ b →
      pre.length ≤ a.length)
    (hne : name ≠ []) (hsep : ¬ nulSep <:+: name) :
    cutAtNulSep (argCap1 (pre ++ cfgMarker ++ (name ++ nulSep ++ rest))) = name ∧
    (∀ r, matchBody false configurationName (pre ++ cfgMarker ++ (name ++ nulSep ++ rest)) r =
      .ok (decide (name = configurationName) || r)) ∧
    matchLoop false configurationName [pre ++ cfgMarker ++ (name ++ nulSep ++ rest)] =
      .ok (decide (name = configurationName)) := by
  have htne : name ++ nulSep ++ rest ≠ [] := by
    cases name with
    | nil => exact absurd rfl hne
    | cons c cs => simp
  have hcap := argCap1_first pre (name ++ nulSep ++ rest) htne hfirst
  have hcut := cutAtNulSep_name name rest hsep
  have hbody : ∀ r, matchBody false configurationName
      (pre ++ cfgMarker ++ (name ++ nulSep ++ rest)) r =
      .ok (decide (name = configurationName) || r) := by
    intro r
    have h1 : ((name ++ nulSep ++ rest) != []) = true := by
      rw [bne_iff_ne]
      exact htne
    unfold matchBody winRequote
    rw [hcap]
    simp only [h1, if_true, Bool.false_eq_true, if_false, hcut]
    by_cases hd : name = configurationName <;> simp [hd]
  refine ⟨by rw [hcap, hcut], hbody, ?_⟩
  simp only [matchLoop, matchLoopFrom, hbody]
  simp


/-- C3, at a concrete input: a candidate running `--configuration=work` does not
match the desired name `home` and does match the desired name `work`. -/
theorem matchBody_named_witness :
    (¬ nulSep <:+: "work".toList) ∧
    matchLoop false "home".toList ["qbittorrent^@--configuration=work^@".toList] = .ok false ∧
    matchLoop false "work".toList ["qbittorrent^@--configuration=work^@".toList] = .ok true :=
  ⟨by decide,
   (matchBody_named "home".toList "qbittorrent^@".toList "work".toList []
      (first_of_scan _ _ (by decide)) (by decide) (by decide)).2.2,
   (matchBody_named "work".toList "qbittorrent^@".toList "work".toList []
      (first_of_scan _ _ (by decide)) (by decide) (by decide)).2.2⟩


/-! ## Properties of `main` -/

theorem main_of_ret {b : Build} {w : World} {tr : List Event} {code : Int}
    (h : tryBlock b w = (tr, .ret code)) : main b w = ⟨tr, .returned code⟩ := by
  simp [main, h]

theorem main_of_throw {b : Build} {w : World} {tr : List Event} {e : CommandLineParameterError}
    (h : tryBlock b w = (tr, .throw e)) :
    main b w = ⟨tr ++ [.displayBadArgMessage e], .returned EXIT_FAILURE⟩ := by
  simp [main, h]

theorem andThen_of_next {a k : List Event × Ctl} (h : a.2 = .next) :
    andThen a k = (a.1 ++ k.1, k.2) := by
  simp [andThen, h]

theorem andThen_of_ret {a k : List Event × Ctl} {code : Int} (h : a.2 = .ret code) :
    andThen a k = a := by
  simp [andThen, h]

theorem andThen_countP_zero (p : Event → Bool) {a k : List Event × Ctl}
    (ha : a.1.countP p = 0) (hk : k.1.countP p = 0) : (andThen a k).1.countP p = 0 := by
  unfold andThen
  cases h : a.2 <;> simp [ha, hk, List.countP_append]

theorem userAgreesWithLegalNotice_quiet (b : Build) (w : World) :
    (userAgreesWithLegalNotice b w).1.countP isSendParams = 0 ∧
      (userAgreesWithLegalNotice b w).1.countP isExec = 0 ∧
      (userAgreesWithLegalNotice b w).1.countP isDisplay = 0 := by
  unfold userAgreesWithLegalNotice
  split_ifs <;> simp [isSendParams, isExec, isDisplay]

theorem checkParams_quiet (b : Build) (w : World) :
    (checkParams b w).1.countP isSendParams = 0 ∧ (checkParams b w).1.countP isExec = 0 := by
  unfold checkParams
  simp only []
  split_ifs <;> simp [isSendParams, isExec]

theorem legalGate_quiet (b : Build) (w : World) :
    (legalGate b w).1.countP isSendParams = 0 ∧ (legalGate b w).1.countP isExec = 0 ∧
      (legalGate b w).1.countP isDisplay = 0 := by
  have h := userAgreesWithLegalNotice_quiet b w
  unfold legalGate
  simp only []
  split_ifs <;> simp [h]

/-- Before `app->isRunning()` is asked, `main` neither forwards nor runs the engine. -/
theorem startup_quiet (b : Build) (w : World) :
    (startup b w).1.countP isSendParams = 0 ∧ (startup b w).1.countP isExec = 0 :=
  ⟨andThen_countP_zero _ (checkParams_quiet b w).1 (legalGate_quiet b w).1,
   andThen_countP_zero _ (checkParams_quiet b w).2 (legalGate_quiet b w).2.1⟩

/-- The daemonization or splash step neither forwards nor runs the engine. -/
theorem daemonizeOrSplash_quiet (b : Build) (w : World) :
    (daemonizeOrSplash b w).1.countP isSendParams = 0 ∧
      (daemonizeOrSplash b w).1.countP isExec = 0 := by
  unfold daemonizeOrSplash
  split_ifs <;> simp [isSendParams, isExec]

theorem installSignalHandlers_quiet (b : Build) :
    (installSignalHandlers b).countP isSendParams = 0 ∧
      (installSignalHandlers b).countP isExec = 0 := by
  unfold installSignalHandlers
  split_ifs <;> simp [isSendParams, isExec]

/-- After the detection block `main` does not forward. -/
theorem afterDetection_quiet (b : Build) (w : World) :
    (afterDetection b w).1.countP isSendParams = 0 := by
  have hd := (daemonizeOrSplash_quiet b w).1
  have hi := (installSignalHandlers_quiet b).1
  unfold afterDetection upgradeStep runEngine
  cases hu : w.upgradeOk
  · simp [andThen, isSendParams]
  · cases hc : (daemonizeOrSplash b w).2 <;>
      simp [andThen, hc, hd, hi, isSendParams, List.countP_cons, List.countP_append]

/-- The engine is entered after the detection block exactly when the upgrade
succeeds and the daemonization or splash step lets control through. -/
theorem afterDetection_exec (b : Build) (w : World) :
    (afterDetection b w).1.countP isExec =
      if w.upgradeOk = true ∧ (daemonizeOrSplash b w).2 = .next then 1 else 0 := by
  have hd := (daemonizeOrSplash_quiet b w).2
  have hi := (installSignalHandlers_quiet b).2
  unfold afterDetection upgradeStep runEngine
  cases hu : w.upgradeOk
  · simp [andThen, isExec]
  · cases hc : (daemonizeOrSplash b w).2 <;>
      simp [andThen, hc, hd, hi, isExec, List.countP_cons, List.countP_append]

/-- The detection block once the scan has been made and the check of the own
command line has passed. -/
theorem detectRunning_eq (b : Build) (w : World) (hrun : w.appIsRunning = true)
    (hown : ownConfigurationCheck b w = .next) :
    detectRunning b w =
      match matchLoop b.windows w.params.configurationName
          (scanProcesses b.windows w.applicationPid w.pidQueryOutput w.cmdLineOutput) with
      | .error e => ([], .throw e)
      | .ok isRunning => afterLoop w isRunning := by
  simp [detectRunning, hrun, hown]


theorem andThen_countP (p : Event → Bool) (a k : List Event × Ctl) :
    (andThen a k).1.countP p = a.1.countP p + (if a.2 = .next then k.1.countP p else 0) := by
  unfold andThen
  cases h : a.2 <;> simp [List.countP_append]

theorem andThen_snd (a k : List Event × Ctl) :
    (andThen a k).2 = if a.2 = .next then k.2 else a.2 := by
  unfold andThen
  cases h : a.2 <;> simp [h]

/-- The `catch` clause adds `displayBadArgMessage` only. -/
theorem main_countP (p : Event → Bool) (hp : ∀ e, p (.displayBadArgMessage e) = false)
    (b : Build) (w : World) :
    (main b w).trace.countP p = (tryBlock b w).1.countP p := by
  unfold main
  rcases h : tryBlock b w with ⟨tr, c⟩
  cases c <;> simp [List.countP_append, hp]

theorem main_outcome (b : Build) (w : World) :
    (main b w).outcome =
      match (tryBlock b w).2 with
      | .ret code => .returned code
      | .throw _ => .returned EXIT_FAILURE
      | .abort => .aborted
      | .next => .returned 0 := by
  unfold main
  rcases h : tryBlock b w with ⟨tr, c⟩
  cases c <;> simp

theorem afterLoop_sendParams (w : World) (isRunning : Bool) :
    (afterLoop w isRunning).1.countP isSendParams =
      if w.params.configurationName = [] then 1 else 0 := by
  unfold afterLoop andThen
  by_cases hc : w.params.configurationName = [] <;> cases isRunning <;> simp [hc, isSendParams]

theorem afterLoop_exec (w : World) (isRunning : Bool) :
    (afterLoop w isRunning).1.countP isExec = 0 := by
  unfold afterLoop andThen
  by_cases hc : w.params.configurationName = [] <;> cases isRunning <;> simp [hc, isExec]

theorem afterLoop_snd (w : World) (isRunning : Bool) :
    (afterLoop w isRunning).2 = if isRunning then .ret EXIT_SUCCESS else .next := by
  unfold afterLoop andThen
  by_cases hc : w.params.configurationName = [] <;> cases isRunning <;> simp [hc]

/-- The detection block never runs the engine. -/
theorem detectRunning_exec (b : Build) (w : World) :
    (detectRunning b w).1.countP isExec = 0 := by
  unfold detectRunning
  cases w.appIsRunning
  · simp
  · simp only [if_true]
    cases ownConfigurationCheck b w <;> try (simp; done)
    cases matchLoop b.windows w.params.configurationName
      (scanProcesses b.windows w.applicationPid w.pidQueryOutput w.cmdLineOutput) with
    | error e => simp
    | ok r => exact afterLoop_exec w r

/-- A `sendParams` in the detection block means that `app->isRunning()` held, the
configuration name is empty and the loop ran to its end. -/
theorem detectRunning_sendParams (b : Build) (w : World)
    (h : (detectRunning b w).1.countP isSendParams ≠ 0) :
    w.appIsRunning = true ∧ w.params.configurationName = [] ∧
      (detectRunning b w).1.countP isSendParams = 1 ∧
      ∃ isRunning, matchLoop b.windows w.params.configurationName
          (scanProcesses b.windows w.applicationPid w.pidQueryOutput w.cmdLineOutput) =
            .ok isRunning ∧
        (detectRunning b w).2 = if isRunning then .ret EXIT_SUCCESS else .next := by
  unfold detectRunning at h ⊢
  cases hr : w.appIsRunning
  · simp [hr] at h
  · simp only [hr, if_true] at h ⊢
    cases ho : ownConfigurationCheck b w with
    | ret c => simp [ho] at h
    | throw e => simp [ho] at h
    | abort => simp [ho] at h
    | next =>
      simp only [ho] at h ⊢
      cases hm : matchLoop b.windows w.params.configurationName
        (scanProcesses b.windows w.applicationPid w.pidQueryOutput w.cmdLineOutput) with
      | error e => simp [hm] at h
      | ok r =>
        simp only [hm, afterLoop_sendParams] at h ⊢
        by_cases hc : w.params.configurationName = []
        · simp [hc, afterLoop_snd]
        · exact absurd (if_neg hc) h


/-- What `main` does once `app->isRunning()` is asked. -/
theorem tryBlock_of_startup (b : Build) (w : World) (hstart : (startup b w).2 = .next) :
    tryBlock b w =
      ((startup b w).1 ++ (andThen (detectRunning b w) (afterDetection b w)).1,
        (andThen (detectRunning b w) (afterDetection b w)).2) := by
  unfold tryBlock
  exact andThen_of_next hstart

/-- The statements after the detection block always end in a `return`. -/
theorem afterDetection_ret (b : Build) (w : World) :
    ∃ code, (afterDetection b w).2 = .ret code := by
  unfold afterDetection upgradeStep runEngine
  cases hu : w.upgradeOk
  · exact ⟨EXIT_FAILURE, by simp [andThen]⟩
  · have hd : ∃ c, (daemonizeOrSplash b w).2 = c := ⟨_, rfl⟩
    obtain ⟨c, hc⟩ := hd
    have hcases : c = .next ∨ c = .ret EXIT_FAILURE := by
      rw [← hc]
      unfold daemonizeOrSplash
      split_ifs <;> simp
    rcases hcases with h | h
    · exact ⟨w.execResult, by simp [andThen, hc, h]⟩
    · exact ⟨EXIT_FAILURE, by simp [andThen, hc, h]⟩

/-- C4, refuted as stated: under Windows an instance without configuration
argument is alive and the start names the configuration `work` without quotes.
The check of the own command line (lines 297-301) throws before the loop is
run: `main` reports the error and returns `EXIT_FAILURE`, it does not go on
towards `app->exec`. -/
theorem unquoted_own_configuration_throws :
    windowsUnquotedWorld.appIsRunning = true ∧
    windowsUnquotedWorld.params.configurationName ≠ [] ∧
    scanProcesses true windowsUnquotedWorld.applicationPid windowsUnquotedWorld.pidQueryOutput
      windowsUnquotedWorld.cmdLineOutput = ["qbittorrent.exe".toList] ∧
    argCap1 "qbittorrent.exe".toList = [] ∧
    detectRunning windowsGui windowsUnquotedWorld = ([], .throw .configurationNameQuotes) ∧
    main windowsGui windowsUnquotedWorld =
      ⟨[.displayBadArgMessage .configurationNameQuotes], .returned EXIT_FAILURE⟩ := by
  decide

/-- C4, as amended: with `app->isRunning()` true, a non-empty candidate list
made only of candidates without configuration argument and, under `Q_OS_WIN`,
an own command line that passes the check of lines 293-303, a start with the
empty configuration name calls `sendParams` exactly once and returns
`EXIT_SUCCESS` without entering `app->exec`; a start with a non-empty configuration name calls `sendParams`
never, leaves the detection block by its end and goes on with the statements
that lead to `app->exec`, which it enters when the upgrade and the
daemonization or splash step let it. -/
theorem main_unnamed_candidates (b : Build) (w : World)
    (hstart : (startup b w).2 = .next)
    (hrun : w.appIsRunning = true)
    (hown : ownConfigurationCheck b w = .next)
    (hne : scanProcesses b.windows w.applicationPid w.pidQueryOutput w.cmdLineOutput ≠ [])
    (hall : ∀ qb ∈ scanProcesses b.windows w.applicationPid w.pidQueryOutput w.cmdLineOutput,
      ¬ ∃ pre name, name ≠ [] ∧ qb = pre ++ cfgMarker ++ name) :
    (w.params.configurationName = [] →
      (main b w).trace.countP isSendParams = 1 ∧
      (main b w).outcome = .returned EXIT_SUCCESS ∧
      (main b w).trace.countP isExec = 0) ∧
    (w.params.configurationName ≠ [] →
      (main b w).trace.countP isSendParams = 0 ∧
      detectRunning b w = ([], .next) ∧
      (main b w).trace = (startup b w).1 ++ (afterDetection b w).1 ∧
      (main b w).trace.countP isExec =
        if w.upgradeOk = true ∧ (daemonizeOrSplash b w).2 = .next then 1 else 0) := by
  have hloop := matchLoop_of_no_capture b.windows w.params.configurationName _ hne
    (fun qb hqb => (argCap1_eq_nil_iff qb).mpr (hall qb hqb))
  have hdet := detectRunning_eq b w hrun hown
  rw [hloop] at hdet
  simp only [] at hdet
  have htry := tryBlock_of_startup b w hstart
  constructor
  · intro hc
    have hdet2 : detectRunning b w = ([.sendParams w.params.paramList], .ret EXIT_SUCCESS) := by
      rw [hdet]
      simp [afterLoop, andThen, hc]
    rw [hdet2, andThen_of_ret (rfl : ((_ : List Event), Ctl.ret EXIT_SUCCESS).2 = _)] at htry
    have hmain := main_of_ret htry
    rw [hmain]
    simp [List.countP_append, startup_quiet, isSendParams, isExec]
  · intro hc
    have hdet2 : detectRunning b w = ([], .next) := by
      rw [hdet]
      simp [afterLoop, andThen, hc]
    rw [hdet2, andThen_of_next (rfl : ((_ : List Event), Ctl.next).2 = _)] at htry
    simp only [List.nil_append] at htry
    obtain ⟨code, hcode⟩ := afterDetection_ret b w
    rw [hcode] at htry
    have hmain := main_of_ret htry
    rw [hmain]
    simp [List.countP_append, startup_quiet, afterDetection_quiet, afterDetection_exec, hdet2]


/-- C4 as amended, at a concrete input: an unnamed instance `qbittorrent` is alive; a start
without configuration name forwards once and returns 0, a start with
`--configuration=work` does not forward and enters the engine. -/
theorem main_unnamed_candidates_witness :
    ((main linuxNoGui (sampleWorld [] "qbittorrent^@".toList)).trace.countP isSendParams = 1 ∧
      (main linuxNoGui (sampleWorld [] "qbittorrent^@".toList)).outcome = .returned EXIT_SUCCESS ∧
      (main linuxNoGui (sampleWorld [] "qbittorrent^@".toList)).trace.countP isExec = 0) ∧
    ((main linuxNoGui (sampleWorld "work".toList "qbittorrent^@".toList)).trace.countP
        isSendParams = 0 ∧
      (main linuxNoGui (sampleWorld "work".toList "qbittorrent^@".toList)).trace.countP
        isExec = 1) :=
  ⟨(main_unnamed_candidates linuxNoGui (sampleWorld [] "qbittorrent^@".toList)
      (by decide) (by decide) (by decide) (by decide)
      (fun qb hqb => (argCap1_eq_nil_iff qb).mp (by
        have hs : scanProcesses linuxNoGui.windows (sampleWorld [] "qbittorrent^@".toList).applicationPid
            (sampleWorld [] "qbittorrent^@".toList).pidQueryOutput
            (sampleWorld [] "qbittorrent^@".toList).cmdLineOutput = ["qbittorrent^@".toList] := by
          decide
        rw [hs, List.mem_singleton] at hqb
        subst hqb
        decide))).1 rfl,
   have h := (main_unnamed_candidates linuxNoGui (sampleWorld "work".toList "qbittorrent^@".toList)
      (by decide) (by decide) (by decide) (by decide)
      (fun qb hqb => (argCap1_eq_nil_iff qb).mp (by
        have hs : scanProcesses linuxNoGui.windows (sampleWorld "work".toList "qbittorrent^@".toList).applicationPid
            (sampleWorld "work".toList "qbittorrent^@".toList).pidQueryOutput
            (sampleWorld "work".toList "qbittorrent^@".toList).cmdLineOutput = ["qbittorrent^@".toList] := by
          decide
        rw [hs, List.mem_singleton] at hqb
        subst hqb
        decide))).2 (by decide)
   ⟨h.1, h.2.2.2.trans (by decide)⟩⟩

/-- C5, refuted as stated: another instance runs `--configuration=work`, the
start has no configuration name. The loop reports no match, yet `main` calls
`sendParams`, goes on, enters `app->exec` and returns its result 3. -/
theorem sendParams_without_match :
    matchLoop false [] ["qbittorrent^@--configuration=work^@".toList] = .ok false ∧
    main linuxNoGui (sampleWorld [] "qbittorrent^@--configuration=work^@".toList) =
      ⟨[.sendParams ["a.torrent".toList], .upgrade (some true),
        .signal 2 .sigNormalHandler, .signal 15 .sigNormalHandler,
        .exec ["a.torrent".toList]], .returned 3⟩ := by
  decide

/-- C5, as amended: `main` calls `sendParams` only when `app->isRunning()` holds
and the configuration name is empty, and then exactly once; when moreover the
matching loop has reported a match, `main` returns `EXIT_SUCCESS` without
entering `app->exec`. -/
theorem sendParams_only_default (b : Build) (w : World)
    (h : (main b w).trace.countP isSendParams ≠ 0) :
    w.appIsRunning = true ∧ w.params.configurationName = [] ∧
    (main b w).trace.countP isSendParams = 1 ∧
    (matchLoop b.windows w.params.configurationName
        (scanProcesses b.windows w.applicationPid w.pidQueryOutput w.cmdLineOutput) = .ok true →
      (main b w).outcome = .returned EXIT_SUCCESS ∧ (main b w).trace.countP isExec = 0) := by
  have hs : (tryBlock b w).1.countP isSendParams = (main b w).trace.countP isSendParams :=
    (main_countP isSendParams (fun _ => rfl) b w).symm
  have he : (main b w).trace.countP isExec = (tryBlock b w).1.countP isExec :=
    main_countP isExec (fun _ => rfl) b w
  have ho := main_outcome b w
  rw [← hs] at h ⊢
  rw [he, ho]
  unfold tryBlock at h ⊢
  simp only [andThen_countP, andThen_snd, (startup_quiet b w).1, (startup_quiet b w).2,
    afterDetection_quiet, detectRunning_exec] at h ⊢
  by_cases hstart : (startup b w).2 = .next
  · simp only [hstart, if_true, zero_add] at h ⊢
    have hd : (detectRunning b w).1.countP isSendParams ≠ 0 := by
      intro h0
      apply h
      rw [h0]
      simp
    obtain ⟨h1, h2, h3, r, hr, hctl⟩ := detectRunning_sendParams b w hd
    refine ⟨h1, h2, by simp [h3], ?_⟩
    intro hm
    rw [hm] at hr
    have hrt : r = true := by
      injection hr with hr
      exact hr.symm
    subst hrt
    simp [hctl]
  · simp [hstart] at h

/-- C5 as amended, at a concrete input: an unnamed instance is alive and the
start has no configuration name. -/
theorem sendParams_only_default_witness :
    (main linuxNoGui (sampleWorld [] "qbittorrent^@".toList)).trace.countP isSendParams ≠ 0 ∧
    (sampleWorld [] "qbittorrent^@".toList).params.configurationName = [] ∧
    (main linuxNoGui (sampleWorld [] "qbittorrent^@".toList)).outcome = .returned EXIT_SUCCESS :=
  have h := sendParams_only_default linuxNoGui (sampleWorld [] "qbittorrent^@".toList)
    (by decide)
  ⟨by decide, h.2.1, (h.2.2.2 (by decide)).1⟩

/-- C6, refuted as stated: an instance runs `--configuration=work` and the start
names the configuration `work`. The loop reports a match and `main` returns
`EXIT_SUCCESS` from the detection block: no upgrade, no signal handler and no
`app->exec` follows. -/
theorem named_match_returns :
    matchLoop false "work".toList ["qbittorrent^@--configuration=work^@".toList] = .ok true ∧
    detectRunning linuxNoGui
        (sampleWorld "work".toList "qbittorrent^@--configuration=work^@".toList) =
      ([], .ret EXIT_SUCCESS) ∧
    main linuxNoGui (sampleWorld "work".toList "qbittorrent^@--configuration=work^@".toList) =
      ⟨[], .returned EXIT_SUCCESS⟩ := by
  decide

/-- C6, as amended: when the matching loop finds a match and the configuration
name of the start is non-empty, `main` does not forward parameters and returns
`EXIT_SUCCESS` from the detection block, so that nothing of the
daemonize, signal-handler and `app->exec` sequence is run. -/
theorem main_named_match (b : Build) (w : World)
    (hstart : (startup b w).2 = .next)
    (hrun : w.appIsRunning = true)
    (hown : ownConfigurationCheck b w = .next)
    (hmatch : matchLoop b.windows w.params.configurationName
        (scanProcesses b.windows w.applicationPid w.pidQueryOutput w.cmdLineOutput) = .ok true)
    (hnamed : w.params.configurationName ≠ []) :
    (main b w).trace.countP isSendParams = 0 ∧
    detectRunning b w = ([], .ret EXIT_SUCCESS) ∧
    main b w = ⟨(startup b w).1, .returned EXIT_SUCCESS⟩ ∧
    (main b w).trace.countP isExec = 0 := by
  have hdet := detectRunning_eq b w hrun hown
  rw [hmatch] at hdet
  have hdet2 : detectRunning b w = ([], .ret EXIT_SUCCESS) := by
    rw [hdet]
    simp [afterLoop, andThen, hnamed]
  have htry := tryBlock_of_startup b w hstart
  rw [hdet2, andThen_of_ret (rfl : ((_ : List Event), Ctl.ret EXIT_SUCCESS).2 = _)] at htry
  simp only [List.append_nil] at htry
  have hmain := main_of_ret htry
  refine ⟨?_, hdet2, hmain, ?_⟩ <;> rw [hmain] <;> simp [startup_quiet]

/-- C6 as amended, at a concrete input: the Windows build, an instance runs
`--configuration="work"` and the start names the configuration `work`. -/
theorem main_named_match_witness :
    (windowsWorld
        "\r\r\nCommandLine=qbittorrent.exe --configuration=\"work\"\r\r\n".toList).params.configurationName
      ≠ [] ∧
    main windowsGui (windowsWorld
        "\r\r\nCommandLine=qbittorrent.exe --configuration=\"work\"\r\r\n".toList) =
      ⟨[], .returned EXIT_SUCCESS⟩ :=
  ⟨by decide,
   (main_named_match windowsGui (windowsWorld
        "\r\r\nCommandLine=qbittorrent.exe --configuration=\"work\"\r\r\n".toList)
      (by decide) (by decide) (by decide) (by decide) (by decide)).2.2.1⟩

/-- Lines 204-226 when no parameter is unknown and the version flag (outside
Windows) or the help flag is set. -/
theorem checkParams_flag (b : Build) (w : World)
    (hunk : w.params.unknownParameter = [])
    (hflag : (b.windows = false ∧ w.params.showVersion = true) ∨ w.params.showHelp = true) :
    checkParams b w =
      if w.argc = 2 then
        ([if !b.windows && w.params.showVersion then .displayVersion else .displayUsage],
          .ret EXIT_SUCCESS)
      else
        ([], .throw (.mustBeSingle
          (if !b.windows && w.params.showVersion then "-v (or --version)".toList
           else "-h (or --help)".toList))) := by
  unfold checkParams
  by_cases h2 : w.argc = 2
  · by_cases hv : (!b.windows && w.params.showVersion) = true
    · simp [hunk, h2, hv]
    · have hh : w.params.showHelp = true := by
        rcases hflag with ⟨h1, h3⟩ | h
        · simp [h1, h3] at hv
        · exact h
      simp [hunk, h2, hv, hh]
  · by_cases hv : (!b.windows && w.params.showVersion) = true
    · simp [hunk, h2, hv]
    · have hh : w.params.showHelp = true := by
        rcases hflag with ⟨h1, h3⟩ | h
        · simp [h1, h3] at hv
        · exact h
      simp [hunk, h2, hv, hh]

/-- C7: with no unknown parameter and the version flag (outside Windows) or the
help flag set, `main` prints the version or the usage and returns
`EXIT_SUCCESS` exactly when `argc == 2`; with any other `argc` it calls neither
`displayVersion` nor `displayUsage`, the `CommandLineParameterError` "must be
the single command line parameter" is raised, reported by
`displayBadArgMessage`, and `main` returns `EXIT_FAILURE`. -/
theorem version_help_single (b : Build) (w : World)
    (hunk : w.params.unknownParameter = [])
    (hflag : (b.windows = false ∧ w.params.showVersion = true) ∨ w.params.showHelp = true) :
    (((main b w).trace.countP isDisplay = 1 ∧ (main b w).outcome = .returned EXIT_SUCCESS) ↔
      w.argc = 2) ∧
    (w.argc = 2 →
      main b w =
        ⟨[if !b.windows && w.params.showVersion then .displayVersion else .displayUsage],
          .returned EXIT_SUCCESS⟩) ∧
    (w.argc ≠ 2 →
      (main b w).trace.countP isDisplay = 0 ∧
      main b w =
        ⟨[.displayBadArgMessage (.mustBeSingle
            (if !b.windows && w.params.showVersion then "-v (or --version)".toList
             else "-h (or --help)".toList))],
          .returned EXIT_FAILURE⟩) := by
  have hcp := checkParams_flag b w hunk hflag
  have hyes : w.argc = 2 →
      main b w =
        ⟨[if !b.windows && w.params.showVersion then .displayVersion else .displayUsage],
          .returned EXIT_SUCCESS⟩ := by
    intro h2
    rw [if_pos h2] at hcp
    apply main_of_ret
    simp [tryBlock, startup, andThen, hcp]
  have hno : w.argc ≠ 2 →
      main b w =
        ⟨[.displayBadArgMessage (.mustBeSingle
            (if !b.windows && w.params.showVersion then "-v (or --version)".toList
             else "-h (or --help)".toList))],
          .returned EXIT_FAILURE⟩ := by
    intro h2
    rw [if_neg h2] at hcp
    have := @main_of_throw b w []
      (.mustBeSingle
            (if !b.windows && w.params.showVersion then "-v (or --version)".toList
             else "-h (or --help)".toList)) (by simp [tryBlock, startup, andThen, hcp])
    simpa using this
  refine ⟨⟨?_, ?_⟩, hyes, fun h2 => ⟨?_, hno h2⟩⟩
  · rintro ⟨_, hout⟩
    by_contra h2
    rw [hno h2] at hout
    simp [EXIT_SUCCESS, EXIT_FAILURE] at hout
  · intro h2
    rw [hyes h2]
    by_cases hv : (!b.windows && w.params.showVersion) = true <;> simp [hv, isDisplay]
  · rw [hno h2]
    simp [isDisplay]


/-- C7, at concrete inputs: `-v -h` (three arguments, both flags) ends in the
error and `EXIT_FAILURE`; `-v` alone prints the version and returns 0. -/
theorem version_help_single_witness :
    main linuxNoGui (flagWorld 3 true true) =
      ⟨[.displayBadArgMessage (.mustBeSingle "-v (or --version)".toList)],
        .returned EXIT_FAILURE⟩ ∧
    main linuxNoGui (flagWorld 2 true false) = ⟨[.displayVersion], .returned EXIT_SUCCESS⟩ :=
  ⟨((version_help_single linuxNoGui (flagWorld 3 true true) rfl
      (Or.inl ⟨rfl, rfl⟩)).2.2 (by decide)).2,
   (version_help_single linuxNoGui (flagWorld 2 true false) rfl
      (Or.inl ⟨rfl, rfl⟩)).2.1 rfl⟩

/-- The scan loop appends one entry for every pid text that differs from the
rendering of the own pid, in order, and nothing else. -/
theorem scanLoop_eq (windows : Bool) (applicationPid : Nat) (cmdLineOutput : QString → QString)
    (pidList qBitList : List QString) :
    scanLoop windows applicationPid cmdLineOutput pidList qBitList =
      qBitList ++ ((pidList.filter (fun pid => pid != number applicationPid)).map
        (fun pid => cmdLineEntry windows (cmdLineOutput pid))) := by
  induction pidList generalizing qBitList with
  | nil => simp [scanLoop]
  | cons pid rest ih =>
    rw [scanLoop]
    by_cases h : pid = number applicationPid
    · subst h
      simp [ih]
    · have h1 : (number applicationPid == pid) = false := by
        rw [beq_eq_false_iff_ne]
        exact fun e => h e.symm
      simp [h1, ih, h]

/-- C8: the process scan never yields the caller itself. In both variants and
for every output of the process query, hence for every pid list cut out of it,
`qBitList` receives, in order, exactly one entry for each listed pid whose text
differs from the decimal rendering of the own process id and no entry for a pid
text equal to it. -/
theorem scanProcesses_skips_self (windows : Bool) (applicationPid : Nat) (list : QString)
    (cmdLineOutput : QString → QString) :
    scanProcesses windows applicationPid list cmdLineOutput =
      ((pidListOf windows list).filter (fun pid => pid != number applicationPid)).map
        (fun pid => cmdLineEntry windows (cmdLineOutput pid)) ∧
    (scanProcesses windows applicationPid list cmdLineOutput).length =
      (pidListOf windows list).countP (fun pid => pid != number applicationPid) ∧
    (∀ pidList : List QString,
      scanLoop windows applicationPid cmdLineOutput pidList [] =
        ((pidList.filter (fun pid => pid != number applicationPid)).map
          (fun pid => cmdLineEntry windows (cmdLineOutput pid)))) := by
  have h : ∀ pidList : List QString,
      scanLoop windows applicationPid cmdLineOutput pidList [] =
        ((pidList.filter (fun pid => pid != number applicationPid)).map
          (fun pid => cmdLineEntry windows (cmdLineOutput pid))) := by
    intro pidList
    rw [scanLoop_eq]
    simp
  refine ⟨h _, ?_, h⟩
  unfold scanProcesses
  rw [h, List.length_map, List.countP_eq_length_filter]


/-- What follows the first `x` of `A ++ B`, when `A` holds no `x`, is an end
piece of `B`. -/
theorem suffix_of_split {α : Type} (x : α) (A B pre post : List α) (hx : x ∉ A)
    (h : A ++ B = pre ++ x :: post) : post <:+ B := by
  induction A generalizing pre with
  | nil => exact ⟨pre ++ [x], by simpa using h.symm⟩
  | cons a A ih =>
    cases pre with
    | nil =>
      simp only [List.cons_append, List.nil_append, List.cons.injEq] at h
      exact absurd (h.1 ▸ List.mem_cons_self a A) hx
    | cons q pre =>
      simp only [List.cons_append, List.cons.injEq] at h
      exact ih pre (fun hm => hx (List.mem_cons_of_mem _ hm)) h.2

theorem not_mem_of_countP_isDaemon {l : List Event} (h : l.countP isDaemon = 0) :
    Event.daemon ∉ l := by
  intro hm
  have hp : 0 < l.countP isDaemon :=
    List.countP_pos_iff.mpr ⟨Event.daemon, hm, (rfl : isDaemon Event.daemon = true)⟩
  omega

theorem startup_no_daemon (b : Build) (w : World) :
    (startup b w).1.countP isDaemon = 0 := by
  apply andThen_countP_zero
  · unfold checkParams
    simp only []
    split_ifs <;> simp [isDaemon]
  · unfold legalGate userAgreesWithLegalNotice
    simp only []
    split_ifs <;> simp [isDaemon]

theorem detectRunning_no_daemon (b : Build) (w : World) :
    (detectRunning b w).1.countP isDaemon = 0 := by
  unfold detectRunning
  cases w.appIsRunning
  · simp
  · simp only [if_true]
    cases ownConfigurationCheck b w <;> try (simp; done)
    cases matchLoop b.windows w.params.configurationName
      (scanProcesses b.windows w.applicationPid w.pidQueryOutput w.cmdLineOutput) with
    | error e => simp
    | ok r =>
      simp only []
      unfold afterLoop andThen
      by_cases hc : w.params.configurationName = [] <;> cases r <;> simp [hc, isDaemon]

/-- Lines 377-391 in the no-GUI build with the daemonize flag. -/
theorem daemonizeOrSplash_daemon (b : Build) (w : World) (hgui : b.disableGui = true)
    (hd : w.params.shouldDaemonize = true) :
    daemonizeOrSplash b w =
      if w.daemonResult = 0 then
        if w.appIsRunningAfterDaemon = true then ([.daemon], .ret EXIT_FAILURE)
        else ([.daemon], .next)
      else ([.daemon, .qCritical], .ret EXIT_FAILURE) := by
  unfold daemonizeOrSplash
  by_cases h0 : w.daemonResult = 0 <;> cases hr : w.appIsRunningAfterDaemon <;>
    simp [hgui, hd, h0, hr]

/-- C9: in the no-GUI build with daemonization requested, `app->exec` is entered
only if `daemon()` returned 0 and the re-created application reports no other
instance; and when `daemon()` fails or the re-created application reports
another instance, every run of `main` that calls `daemon()` returns
`EXIT_FAILURE`, with neither a `sendParams` nor an `app->exec` after that call. -/
theorem daemonize_guard (b : Build) (w : World) (hgui : b.disableGui = true)
    (hd : w.params.shouldDaemonize = true) :
    ((main b w).trace.countP isExec ≠ 0 →
      w.daemonResult = 0 ∧ w.appIsRunningAfterDaemon = false) ∧
    (∀ pre post, (main b w).trace = pre ++ .daemon :: post →
      (w.daemonResult ≠ 0 ∨ w.appIsRunningAfterDaemon = true) →
      (main b w).outcome = .returned EXIT_FAILURE ∧
      post.countP isSendParams = 0 ∧ post.countP isExec = 0) := by
  have hdos := daemonizeOrSplash_daemon b w hgui hd
  constructor
  · intro h
    rw [main_countP isExec (fun _ => rfl)] at h
    unfold tryBlock at h
    simp only [andThen_countP, (startup_quiet b w).2, detectRunning_exec,
      afterDetection_exec] at h
    have h2 : w.upgradeOk = true ∧ (daemonizeOrSplash b w).2 = .next := by
      by_contra hn
      simp [hn] at h
    have h3 := h2.2
    rw [hdos] at h3
    by_cases h0 : w.daemonResult = 0
    · cases hr : w.appIsRunningAfterDaemon
      · exact ⟨h0, rfl⟩
      · simp [h0, hr] at h3
    · simp [h0] at h3
  · intro pre post htr hbad
    have hfail : daemonizeOrSplash b w = ([.daemon], .ret EXIT_FAILURE) ∨
        daemonizeOrSplash b w = ([.daemon, .qCritical], .ret EXIT_FAILURE) := by
      rw [hdos]
      by_cases h0 : w.daemonResult = 0
      · rcases hbad with h | h
        · exact absurd h0 h
        · simp [h0, h]
      · simp [h0]
    have hmem : Event.daemon ∈ (main b w).trace := by
      rw [htr]
      simp
    have hcount : (main b w).trace.countP isDaemon ≠ 0 := by
      have hp : 0 < (main b w).trace.countP isDaemon :=
        List.countP_pos_iff.mpr ⟨Event.daemon, hmem, (rfl : isDaemon Event.daemon = true)⟩
      omega
    rw [main_countP isDaemon (fun _ => rfl)] at hcount
    unfold tryBlock at hcount
    simp only [andThen_countP, startup_no_daemon, detectRunning_no_daemon, zero_add] at hcount
    have hs : (startup b w).2 = .next := by
      by_contra hn
      simp [hn] at hcount
    have hdt : (detectRunning b w).2 = .next := by
      by_contra hn
      simp [hn] at hcount
    have hup : w.upgradeOk = true := by
      by_contra hn
      simp only [Bool.not_eq_true] at hn
      simp [hs, hdt, afterDetection, upgradeStep, andThen, hn, isDaemon] at hcount
    have hafter : ∃ B, (B = [Event.daemon] ∨ B = [Event.daemon, Event.qCritical]) ∧
        afterDetection b w = ([.upgrade (some (!w.params.shouldDaemonize && w.isattyStdin &&
          w.isattyStdout))] ++ B, .ret EXIT_FAILURE) := by
      rcases hfail with h | h
      · exact ⟨_, Or.inl rfl, by simp [afterDetection, upgradeStep, andThen, hup, h, hgui]⟩
      · exact ⟨_, Or.inr rfl, by simp [afterDetection, upgradeStep, andThen, hup, h, hgui]⟩
    obtain ⟨B, hB, hafter⟩ := hafter
    have htry : tryBlock b w =
        (((startup b w).1 ++ (detectRunning b w).1 ++
          [.upgrade (some (!w.params.shouldDaemonize && w.isattyStdin && w.isattyStdout))]) ++ B,
          .ret EXIT_FAILURE) := by
      unfold tryBlock
      rw [andThen_of_next hs, andThen_of_next hdt, hafter]
      simp
    have hmain := main_of_ret htry
    rw [hmain] at htr
    have hA : Event.daemon ∉ (startup b w).1 ++ (detectRunning b w).1 ++
        [.upgrade (some (!w.params.shouldDaemonize && w.isattyStdin && w.isattyStdout))] := by
      apply not_mem_of_countP_isDaemon
      simp [List.countP_append, startup_no_daemon, detectRunning_no_daemon, isDaemon]
    have hsuf := suffix_of_split Event.daemon _ B pre post hA htr
    have hle1 := hsuf.sublist.countP_le isSendParams
    have hle2 := hsuf.sublist.countP_le isExec
    have hB1 : B.countP isSendParams = 0 ∧ B.countP isExec = 0 := by
      rcases hB with h | h <;> subst h <;> simp [isSendParams, isExec]
    refine ⟨by rw [hmain], ?_, ?_⟩ <;> omega

/-- C9, at concrete inputs: `daemon()` fails with -1, and `daemon()` succeeds
while another instance has appeared; both runs return `EXIT_FAILURE` right
after the call of `daemon`. -/
theorem daemonize_guard_witness :
    (main linuxNoGui (daemonWorld (-1) false)).trace =
        [.upgrade (some false)] ++ .daemon :: [.qCritical] ∧
      (main linuxNoGui (daemonWorld (-1) false)).outcome = .returned EXIT_FAILURE ∧
    (main linuxNoGui (daemonWorld 0 true)).trace = [.upgrade (some false)] ++ .daemon :: [] ∧
      (main linuxNoGui (daemonWorld 0 true)).outcome = .returned EXIT_FAILURE :=
  ⟨by decide,
   ((daemonize_guard linuxNoGui (daemonWorld (-1) false) rfl rfl).2 [.upgrade (some false)]
      [.qCritical] (by decide) (Or.inl (by decide))).1,
   by decide,
   ((daemonize_guard linuxNoGui (daemonWorld 0 true) rfl rfl).2 [.upgrade (some false)]
      [] (by decide) (Or.inr rfl)).1⟩


/-! ## Properties of the signal handler -/

theorem stderrWrites_append (l1 l2 : List Action) :
    stderrWrites (l1 ++ l2) = stderrWrites l1 ++ stderrWrites l2 := by
  induction l1 with
  | nil => rfl
  | cons a l1 ih =>
    cases a with
    | write fd buf =>
      simp only [List.cons_append, stderrWrites]
      split_ifs <;> simp [ih]
    | appExit => simpa only [List.cons_append, stderrWrites] using ih
    | printStacktrace => simpa only [List.cons_append, stderrWrites] using ih
    | stacktraceDialog n => simpa only [List.cons_append, stderrWrites] using ih
    | defaultAction n => simpa only [List.cons_append, stderrWrites] using ih

/-- One `reportToUser` passes its text to `write` for the standard error stream
once, whatever `write` returns, and leaves the dispositions alone. -/
theorem reportToUser_spec (writeResult : Nat → QString → Int) (str : QString) (p : Process) :
    stderrWrites (reportToUser writeResult str p).log = stderrWrites p.log ++ [str] ∧
      (reportToUser writeResult str p).disposition = p.disposition := by
  unfold reportToUser
  simp only []
  split_ifs <;>
    simp [stderrWrites_append, stderrWrites, STDERR_FILENO, STDOUT_FILENO]

/-- One run of `sigNormalHandler` for a signal number that has the entry `name`
in the table. -/
theorem sigNormalHandler_spec (b : Build) (writeResult : Nat → QString → Int) (signum : Nat)
    (p : Process) (name : QString) (hname : (sysSigName b.windows)[signum]? = some name) :
    ∃ p1, sigNormalHandler b writeResult signum p = some p1 ∧
      stderrWrites p1.log = stderrWrites p.log ++
        (if (!b.windows && !b.haiku) = true then
          ["Catching signal: ".toList, name, "\nExiting cleanly\n".toList]
         else []) ∧
      p1.log.getLast? = some .appExit ∧
      p1.disposition = fun n => if n = signum then .SIG_DFL else p.disposition n := by
  unfold sigNormalHandler
  by_cases hb : (!b.windows && !b.haiku) = true
  · simp only [hb, if_true, hname, Option.map_some']
    refine ⟨_, rfl, ?_, by simp, ?_⟩
    · simp [Process.signal, stderrWrites_append, stderrWrites, reportToUser_spec]
    · simp [Process.signal, reportToUser_spec]
  · simp only [hb, if_false, Option.map_some']
    refine ⟨_, rfl, ?_, by simp, ?_⟩
    · simp [Process.signal, stderrWrites_append, stderrWrites]
    · simp [Process.signal]

/-- The calls of `signal` in `main` leave `sigNormalHandler` installed for
`SIGINT` and for `SIGTERM`. -/
theorem installed_normal (b : Build) (p0 : Process) (signum : Nat)
    (hsig : signum = SIGINT ∨ signum = SIGTERM) :
    Event.signal signum .sigNormalHandler ∈ installSignalHandlers b ∧
      (p0.applyEvents (installSignalHandlers b)).disposition signum = .sigNormalHandler := by
  unfold installSignalHandlers
  rcases hsig with h | h <;> subst h <;> cases b.stacktrace <;> cases b.windows <;>
    simp [Process.applyEvents, Process.signal, SIGINT, SIGTERM, SIGABRT, SIGSEGV]

/-- C10, refuted as stated: Haiku is not Windows, yet on a Haiku build the
guard of line 425 compiles the three calls of `reportToUser` out. One delivery
of `SIGINT` runs the handler, which passes nothing to `write`: it resets the
disposition and calls `qApp->exit()` only. -/
theorem haiku_handler_writes_nothing :
    haikuNoGui.windows = false ∧
    ∃ p1,
      deliver haikuNoGui (fun _ buf => buf.length) [] SIGINT
          (bootProcess.applyEvents (installSignalHandlers haikuNoGui)) = some p1 ∧
        p1.log = [.appExit] ∧
        stderrWrites p1.log = [] ∧
        p1.disposition SIGINT = .SIG_DFL :=
  ⟨rfl, _, rfl, rfl, rfl, rfl⟩

/-- C10, as amended: for each of the two termination signals `main` installs the
handler for (`SIGINT` = 2, `SIGTERM` = 15), the table of 32 names holds the name
of the signal at its number, and one delivery runs `sigNormalHandler`, which,
when neither `Q_OS_WIN` nor `Q_OS_HAIKU` is defined, reads that entry and
passes `"Catching signal: "`, that name and `"\nExiting cleanly\n"` to `write`
for the standard error stream, and in every build sets the disposition
of the signal to `SIG_DFL`, leaves every other disposition as it was, and ends
by `qApp->exit()`; a second delivery of the same signal takes the default action
of the operating system and does not run the handler. -/
theorem sigNormalHandler_once (b : Build) (writeResult : Nat → QString → Int)
    (qbtVersion : QString) (p0 : Process) (signum : Nat)
    (hsig : signum = SIGINT ∨ signum = SIGTERM) :
    Event.signal signum .sigNormalHandler ∈ installSignalHandlers b ∧
    (p0.applyEvents (installSignalHandlers b)).disposition signum = .sigNormalHandler ∧
    (sysSigName b.windows).length = 32 ∧
    signum < (sysSigName b.windows).length ∧
    (sysSigName b.windows)[signum]? =
      some (if signum = 2 then "SIGINT".toList else "SIGTERM".toList) ∧
    ∃ p1,
      deliver b writeResult qbtVersion signum (p0.applyEvents (installSignalHandlers b)) =
        some p1 ∧
      stderrWrites p1.log = stderrWrites (p0.applyEvents (installSignalHandlers b)).log ++
        (if (!b.windows && !b.haiku) = true then
          ["Catching signal: ".toList,
            if signum = 2 then "SIGINT".toList else "SIGTERM".toList,
            "\nExiting cleanly\n".toList]
         else []) ∧
      p1.log.getLast? = some .appExit ∧
      p1.disposition signum = .SIG_DFL ∧
      (∀ n, n ≠ signum →
        p1.disposition n = (p0.applyEvents (installSignalHandlers b)).disposition n) ∧
      deliver b writeResult qbtVersion signum p1 =
        some { p1 with log := p1.log ++ [.defaultAction signum] } := by
  have hinst := installed_normal b p0 signum hsig
  have hlen : (sysSigName b.windows).length = 32 := by
    cases b.windows <;> rfl
  have hname : (sysSigName b.windows)[signum]? =
      some (if signum = 2 then "SIGINT".toList else "SIGTERM".toList) := by
    rcases hsig with h | h <;> subst h <;> cases b.windows <;> rfl
  have hlt : signum < (sysSigName b.windows).length := by
    rw [hlen]
    rcases hsig with h | h <;> subst h <;> simp [SIGINT, SIGTERM]
  obtain ⟨p1, h1, h2, h3, h4⟩ :=
    sigNormalHandler_spec b writeResult signum (p0.applyEvents (installSignalHandlers b)) _ hname
  refine ⟨hinst.1, hinst.2, hlen, hlt, hname, p1, ?_, h2, h3, ?_, ?_, ?_⟩
  · unfold deliver
    rw [hinst.2]
    exact h1
  · rw [h4]
    simp
  · intro n hn
    rw [h4]
    simp [hn]
  · unfold deliver
    have : p1.disposition signum = .SIG_DFL := by
      rw [h4]
      simp
    rw [this]
    rfl


/-- C10 as amended, at a concrete input: `SIGINT` delivered to a process started by the
Linux build, whose `write` always writes everything. -/
theorem sigNormalHandler_once_witness :
    (SIGINT = SIGINT ∨ SIGINT = SIGTERM) ∧
    ∃ p1,
      deliver linuxNoGui (fun _ buf => buf.length) [] SIGINT
          (bootProcess.applyEvents (installSignalHandlers linuxNoGui)) = some p1 ∧
        stderrWrites p1.log =
          ["Catching signal: ".toList, "SIGINT".toList, "\nExiting cleanly\n".toList] ∧
        p1.disposition SIGINT = .SIG_DFL ∧
        deliver linuxNoGui (fun _ buf => buf.length) [] SIGINT p1 =
          some { p1 with log := p1.log ++ [.defaultAction SIGINT] } := by
  have h := sigNormalHandler_once linuxNoGui (fun _ buf => buf.length) [] bootProcess SIGINT
    (Or.inl rfl)
  obtain ⟨_, _, _, _, _, p1, h1, h2, _, h4, _, h6⟩ := h
  exact ⟨Or.inl rfl, p1, h1, h2, h4, h6⟩


/-! ## Properties of the legal notice -/

/-- Without a call that writes the flag, the flag keeps its value. -/
theorem acceptedLegalAfter_of_no_legal (flag : Bool) (l : List Event)
    (h : l.countP isLegal = 0) : acceptedLegalAfter flag l = flag := by
  induction l with
  | nil => rfl
  | cons e l ih =>
    have hall : ∀ x ∈ e :: l, isLegal x = false := by
      simpa [List.countP_eq_zero] using h
    have he : isLegal e = false := hall e (List.mem_cons_self e l)
    have hl : l.countP isLegal = 0 := by
      rw [List.countP_eq_zero]
      intro x hx
      simpa using hall x (List.mem_cons_of_mem e hx)
    cases e with
    | legalNoticePrompt => simp [isLegal] at he
    | setAcceptedLegal v => simp [isLegal] at he
    | displayVersion => simpa only [acceptedLegalAfter] using ih hl
    | displayUsage => simpa only [acceptedLegalAfter] using ih hl
    | sendParams ps => simpa only [acceptedLegalAfter] using ih hl
    | upgrade ask => simpa only [acceptedLegalAfter] using ih hl
    | daemon => simpa only [acceptedLegalAfter] using ih hl
    | qCritical => simpa only [acceptedLegalAfter] using ih hl
    | showSplashScreen => simpa only [acceptedLegalAfter] using ih hl
    | signal n h => simpa only [acceptedLegalAfter] using ih hl
    | exec ps => simpa only [acceptedLegalAfter] using ih hl
    | displayBadArgMessage e => simpa only [acceptedLegalAfter] using ih hl

theorem checkParams_no_legal (b : Build) (w : World) :
    (checkParams b w).1.countP isLegal = 0 := by
  unfold checkParams
  simp only []
  split_ifs <;> simp [isLegal]

theorem detectRunning_no_legal (b : Build) (w : World) :
    (detectRunning b w).1.countP isLegal = 0 := by
  unfold detectRunning
  cases w.appIsRunning
  · simp
  · simp only [if_true]
    cases ownConfigurationCheck b w <;> try (simp; done)
    cases matchLoop b.windows w.params.configurationName
      (scanProcesses b.windows w.applicationPid w.pidQueryOutput w.cmdLineOutput) with
    | error e => simp
    | ok r =>
      simp only []
      unfold afterLoop andThen
      by_cases hc : w.params.configurationName = [] <;> cases r <;> simp [hc, isLegal]

theorem afterDetection_no_legal (b : Build) (w : World) :
    (afterDetection b w).1.countP isLegal = 0 := by
  have hd : (daemonizeOrSplash b w).1.countP isLegal = 0 := by
    unfold daemonizeOrSplash
    split_ifs <;> simp [isLegal]
  have hi : (installSignalHandlers b).countP isLegal = 0 := by
    unfold installSignalHandlers
    split_ifs <;> simp [isLegal]
  unfold afterDetection upgradeStep runEngine
  cases hu : w.upgradeOk
  · simp [andThen, isLegal]
  · cases hc : (daemonizeOrSplash b w).2 <;>
      simp [andThen, hc, hd, hi, isLegal, List.countP_cons, List.countP_append]

/-- Lines 236-240 of the no-GUI build when the daemonize flag is set or one of
the two streams is not a terminal: `userAgreesWithLegalNotice` is not called. -/
theorem legalGate_skip (b : Build) (w : World) (hgui : b.disableGui = true)
    (hskip : w.params.shouldDaemonize = true ∨ w.isattyStdin = false ∨ w.isattyStdout = false) :
    legalGate b w = ([], .next) := by
  unfold legalGate
  rcases hskip with h | h | h <;> simp [hgui, h]

/-- Function `userAgreesWithLegalNotice` of the no-GUI build when the flag is not set. -/
theorem userAgrees_unset (b : Build) (w : World) (hgui : b.disableGui = true)
    (hflag : w.acceptedLegal = false) :
    userAgreesWithLegalNotice b w =
      if w.getchar = 'y' ∨ w.getchar = 'Y' then
        ([.legalNoticePrompt, .setAcceptedLegal true], true)
      else ([.legalNoticePrompt], false) := by
  unfold userAgreesWithLegalNotice
  by_cases hk : w.getchar = 'y' ∨ w.getchar = 'Y'
  · rcases hk with h | h <;> simp [hgui, hflag, h]
  · have h1 : ¬ w.getchar = 'y' := fun h => hk (Or.inl h)
    have h2 : ¬ w.getchar = 'Y' := fun h => hk (Or.inr h)
    simp [hgui, hflag, h1, h2]


/-- When lines 204-226 let control through they have made no recorded call. -/
theorem checkParams_next (b : Build) (w : World) (h : (checkParams b w).2 = .next) :
    checkParams b w = ([], .next) := by
  unfold checkParams at h ⊢
  simp only [] at h ⊢
  split_ifs at h ⊢
  simp_all

/-- C11: the legal notice in the no-GUI build. When daemonization is requested
or the standard input or output is not a terminal, `main` does not call
`userAgreesWithLegalNotice`: no prompt, no write of the acceptance flag, which
keeps its value, and the start goes on with the instance detection. The function
itself returns true without a prompt when the flag is set; when it is not set,
it prompts, and it returns true and sets the flag exactly when the key read is
`y` or `Y`, and returns false with the flag as it was on any other key; `main`
then returns `EXIT_SUCCESS` with the prompt as its only recorded call, before
the instance detection. -/
theorem legal_notice_gate (b : Build) (w : World) (hgui : b.disableGui = true) :
    ((w.params.shouldDaemonize = true ∨ w.isattyStdin = false ∨ w.isattyStdout = false) →
      legalGate b w = ([], .next) ∧
      (main b w).trace.countP isLegal = 0 ∧
      acceptedLegalAfter w.acceptedLegal (main b w).trace = w.acceptedLegal ∧
      ((checkParams b w).2 = .next →
        tryBlock b w = andThen (detectRunning b w) (afterDetection b w))) ∧
    (w.acceptedLegal = true → userAgreesWithLegalNotice b w = ([], true)) ∧
    (w.acceptedLegal = false →
      ((userAgreesWithLegalNotice b w).2 = true ↔ (w.getchar = 'y' ∨ w.getchar = 'Y')) ∧
      ((w.getchar = 'y' ∨ w.getchar = 'Y') →
        userAgreesWithLegalNotice b w = ([.legalNoticePrompt, .setAcceptedLegal true], true) ∧
        acceptedLegalAfter w.acceptedLegal (userAgreesWithLegalNotice b w).1 = true) ∧
      (¬ (w.getchar = 'y' ∨ w.getchar = 'Y') →
        userAgreesWithLegalNotice b w = ([.legalNoticePrompt], false) ∧
        acceptedLegalAfter w.acceptedLegal (userAgreesWithLegalNotice b w).1 = w.acceptedLegal ∧
        (w.params.shouldDaemonize = false → w.isattyStdin = true → w.isattyStdout = true →
          (checkParams b w).2 = .next →
          main b w = ⟨[.legalNoticePrompt], .returned EXIT_SUCCESS⟩ ∧
          acceptedLegalAfter w.acceptedLegal (main b w).trace = w.acceptedLegal))) := by
  refine ⟨?_, ?_, ?_⟩
  · intro hskip
    have hg := legalGate_skip b w hgui hskip
    have hcount : (main b w).trace.countP isLegal = 0 := by
      rw [main_countP isLegal (fun _ => rfl)]
      unfold tryBlock startup
      simp [andThen_countP, hg, checkParams_no_legal, detectRunning_no_legal,
        afterDetection_no_legal]
    refine ⟨hg, hcount, acceptedLegalAfter_of_no_legal _ _ hcount, ?_⟩
    intro hc
    unfold tryBlock startup
    rw [checkParams_next b w hc, hg]
    simp [andThen]
  · intro hflag
    simp [userAgreesWithLegalNotice, hflag]
  · intro hflag
    have hu := userAgrees_unset b w hgui hflag
    refine ⟨?_, ?_, ?_⟩
    · rw [hu]
      by_cases hk : w.getchar = 'y' ∨ w.getchar = 'Y' <;> simp [hk]
    · intro hk
      rw [hu, if_pos hk]
      exact ⟨rfl, rfl⟩
    · intro hk
      rw [hu, if_neg hk]
      refine ⟨rfl, rfl, ?_⟩
      intro hd h1 h2 hc
      have hg : legalGate b w = ([.legalNoticePrompt], .ret EXIT_SUCCESS) := by
        unfold legalGate
        simp [hgui, hd, h1, h2, hu, hk]
      have htry : tryBlock b w = ([.legalNoticePrompt], .ret EXIT_SUCCESS) := by
        unfold tryBlock startup
        rw [checkParams_next b w hc, hg]
        simp [andThen]
      have hmain := main_of_ret htry
      rw [hmain]
      exact ⟨rfl, rfl⟩

/-- C11, at concrete inputs, for the Linux no-GUI build on a terminal with the
flag not set: the key `n` ends `main` with `EXIT_SUCCESS` after the prompt, the
key `Y` is accepted and stored, and with the daemonize flag nothing of the legal
notice happens. -/
theorem legal_notice_gate_witness :
    main linuxNoGui (legalWorld false 'n') = ⟨[.legalNoticePrompt], .returned EXIT_SUCCESS⟩ ∧
    userAgreesWithLegalNotice linuxNoGui (legalWorld false 'Y') =
      ([.legalNoticePrompt, .setAcceptedLegal true], true) ∧
    (main linuxNoGui (legalWorld true 'n')).trace.countP isLegal = 0 :=
  have h := legal_notice_gate linuxNoGui (legalWorld false 'n') rfl
  have hY := legal_notice_gate linuxNoGui (legalWorld false 'Y') rfl
  have hd := legal_notice_gate linuxNoGui (legalWorld true 'n') rfl
  ⟨((h.2.2 rfl).2.2 (by decide)).2.2 rfl rfl rfl (by decide) |>.1,
   ((hY.2.2 rfl).2.1 (Or.inr rfl)).1,
   (hd.1 (Or.inl rfl)).2.1⟩

end QBt
